import Mathlib

/-!
# Turn-based grid combat game (`part_b`): Game, Medic, Sniper

A shallow embedding of `Game.cpp`, `Medic.cpp` and `Sniper.cpp`.

* `units_t` / `int` values are mathematical integers (`Int`); signed overflow is
  undefined behaviour in the source and is outside the model.
* The roster `std::vector<std::shared_ptr<Character>>` is a `List Character` of
  distinct objects; a reference into the roster is an index, and a write through
  a reference is `modifyAt` at that index.
* A member function that can throw returns the state it leaves behind together
  with the exception it threw (if any), so that partial mutation is observable.
* Code that is not part of the three files (the `Character` base class, the
  `Board`, `GridPoint::distance`, the class constants and all of `Soldier`) is
  either a parameter collected in `Rules` or a definition marked
  "Modelled from the spec".
-/

namespace mtm

/-! ## Data model -/

/-- A board coordinate. -/
structure GridPoint where
  row : Int
  col : Int
deriving DecidableEq, Repr

/-- The two teams. -/
inductive Team where
  | POWERLIFTERS
  | CROSSFITTERS
deriving DecidableEq, Repr

/-- The three unit kinds. -/
inductive CharacterType where
  | SOLDIER
  | MEDIC
  | SNIPER
deriving DecidableEq, Repr

/-- Integer value of a `Team` enumerator (declaration order). -/
def Team.code : Team → Int
  | .POWERLIFTERS => 0
  | .CROSSFITTERS => 1

/-- Integer value of a `CharacterType` enumerator (declaration order). -/
def CharacterType.code : CharacterType → Int
  | .SOLDIER => 0
  | .MEDIC => 1
  | .SNIPER => 2

/-- The exceptions the game can throw. -/
inductive GameException where
  | IllegalArgument
  | OutOfBounds
  | CellEmpty
  | CellOccupied
  | MoveTooFar
  | OutOfRange
  | OutOfAmmo
  | IllegalTarget
deriving DecidableEq, Repr

/-- The state of one unit: the `Character` base fields plus the Sniper's
`shot_counter` (0 and unused for the other kinds). -/
structure Character where
  kind : CharacterType
  health : Int
  ammo : Int
  range : Int
  power : Int
  team : Team
  position : GridPoint
  shot_counter : Int
deriving DecidableEq, Repr

/-- Board dimensions. -/
structure Board where
  rows : Int
  cols : Int
deriving DecidableEq, Repr

/-- The match engine state: roster and board. -/
structure Game where
  characters : List Character
  board : Board
deriving DecidableEq, Repr

/-- What a call of a `Game` member function leaves behind: the game state after
the call and the exception it threw, if any. -/
structure Outcome where
  game : Game
  thrown : Option GameException
deriving DecidableEq, Repr

/-! ## Parameters: declarations that are not in the three source files -/

/-- The class constants of `Medic` (declared in the header). -/
structure MedicConstants where
  MAGAZINE_SIZE : Int
  MOVEMENT : Int

/-- The class constants of `Sniper` (declared in the header), all integers. -/
structure SniperConstants where
  MAGAZINE_SIZE : Int
  MOVEMENT : Int
  DISTANCE_FACTOR : Int
  IMPACT_FACTOR : Int
  COMBO_FOR_BONUS : Int

/-- The virtual member functions of `Soldier`, whose source file is not available.
`attack` and `move` give the Soldier left behind and the exception thrown;
`dealDamage cs i j target` is the effect on the roster of the Soldier at index
`i` dealing damage to the roster entry at index `j`. -/
structure SoldierImpl where
  MOVEMENT : Int
  attack : Character → GridPoint → Option Character → Character × Option GameException
  dealDamage : List Character → Nat → Nat → GridPoint → List Character
  reload : Character → Character
  move : Character → GridPoint → Character × Option GameException

/-- Everything the three source files use but do not define. -/
structure Rules where
  distance : GridPoint → GridPoint → Int
  medic : MedicConstants
  sniper : SniperConstants
  soldier : SoldierImpl

/-! ## The `Character` base class -/

/-- Modelled from the spec: `Character::setPosition`, missing from the sources;
"on success, position becomes dst". -/
def Character.setPosition (self : Character) (p : GridPoint) : Character :=
  { self with position := p }

/-- Modelled from the spec: `Character::decreaseAmmo`, missing from the sources;
"attacks that require ammo and find none fail instead of decrementing below
zero", otherwise the attack "consumes one ammo unit". -/
def Character.decreaseAmmo (self : Character) : Character × Option GameException :=
  if self.ammo ≤ 0 then (self, some .OutOfAmmo)
  else ({ self with ammo := self.ammo - 1 }, none)

/-- Modelled from the spec: `Character::increaseAmmo`, missing from the sources;
the only thing the spec says about its effect is that a reload "restores ammo to
the variant's fixed magazine size (flat reset, not incremental)" and "never
exceeds the magazine cap". -/
def Character.increaseAmmo (self : Character) (amount : Int) : Character :=
  { self with ammo := amount }

/-- Modelled from the spec: `Character::heal`, missing from the sources;
"heals allies by attack power". -/
def Character.heal (self : Character) (amount : Int) : Character :=
  { self with health := self.health + amount }

/-- Modelled from the spec: `Character::decreaseHitPoints`, missing from the
sources; "damages enemies by attack power", and "health may go negative
internally". -/
def Character.decreaseHitPoints (self : Character) (amount : Int) : Character :=
  { self with health := self.health - amount }

/-- The virtual `getMovement()`: `Medic::getMovement` returns `MOVEMENT`; the
Sniper's is the `MOVEMENT` that `Sniper::move` compares with. -/
def Character.getMovement (R : Rules) (self : Character) : Int :=
  match self.kind with
  | .MEDIC => R.medic.MOVEMENT
  | .SNIPER => R.sniper.MOVEMENT
  | .SOLDIER => R.soldier.MOVEMENT

/-- Modelled from the spec: `Character::ensureInMovementRange`, missing from the
sources; "fails with MoveTooFar if distance(current, dst) exceeds the variant's
movement allowance". -/
def Character.ensureInMovementRange (R : Rules) (self : Character) (dst : GridPoint) :
    Option GameException :=
  if R.distance self.position dst > self.getMovement R then some .MoveTooFar else none

/-! ## The board service -/

/-- Modelled from the spec: `Board::ensurePointOnBoard`, missing from the sources;
"fails with OutOfBounds if p lies outside [0,rows)×[0,cols)". -/
def Board.ensurePointOnBoard (b : Board) (p : GridPoint) : Option GameException :=
  if 0 ≤ p.row ∧ p.row < b.rows ∧ 0 ≤ p.col ∧ p.col < b.cols then none
  else some .OutOfBounds

/-- Modelled from the spec: `Board::getCharacterInPoint`, missing from the sources;
"locates the living unit at src (fails if none — e.g., CellEmpty)". The result is
the roster index of the first unit standing at `p` together with that unit;
`none` stands for the `CellEmpty` exception. -/
def Board.getCharacterInPoint (p : GridPoint) : List Character → Option (Nat × Character)
  | [] => none
  | c :: cs =>
    if c.position = p then some (0, c)
    else (Board.getCharacterInPoint p cs).map (fun r => (r.1 + 1, r.2))

/-- Modelled from the spec: `Board::getCharacterIfExists`, missing from the
sources; "returns the unit at p or none" (`nullptr`). -/
def Board.getCharacterIfExists (p : GridPoint) (cs : List Character) : Option Character :=
  (Board.getCharacterInPoint p cs).map (fun r => r.2)

/-- Modelled from the spec: `Board::ensureAvailablePoint`, missing from the
sources; "fails (propagating Board Service errors) if position is off-board or
occupied": off-board gives `OutOfBounds`, an occupied point `CellOccupied`. -/
def Board.ensureAvailablePoint (b : Board) (p : GridPoint) (cs : List Character) :
    Option GameException :=
  match b.ensurePointOnBoard p with
  | some e => some e
  | none =>
    match Board.getCharacterIfExists p cs with
    | some _ => some .CellOccupied
    | none => none

/-- In-place update of the roster entry at index `k` (a write through a
reference to that entry); no effect when `k` is out of range. -/
def modifyAt : List Character → Nat → (Character → Character) → List Character
  | [], _, _ => []
  | c :: cs, 0, f => f c :: cs
  | c :: cs, k + 1, f => c :: modifyAt cs k f

/-! ## `Medic.cpp` -/

/-- `Medic::validateTargetInRange`. -/
def Medic.validateTargetInRange (R : Rules) (self : Character) (target : GridPoint) :
    Option GameException :=
  let distance := R.distance self.position target
  if distance = 0 then some .IllegalTarget
  else if distance > self.range then some .OutOfRange
  else none

/-- `Medic::attack`: the Medic left behind and the exception thrown. -/
def Medic.attack (R : Rules) (self : Character) (target : GridPoint)
    (character_in_dst : Option Character) : Character × Option GameException :=
  match Medic.validateTargetInRange R self target with
  | some e => (self, some e)
  | none =>
    match character_in_dst with
    | none =>
      if self.ammo ≤ 0 then (self, some .OutOfAmmo)
      else (self, some .IllegalTarget)
    | some c =>
      if c.team ≠ self.team then self.decreaseAmmo
      else if c.position = self.position then (self, some .IllegalTarget)
      else (self, none)

/-- `Medic::reload`. -/
def Medic.reload (R : Rules) (self : Character) : Character :=
  self.increaseAmmo R.medic.MAGAZINE_SIZE

/-- `Medic::dealDamage` called on the Medic at roster index `i` with the roster
entry at index `j` as `character`. -/
def Medic.dealDamage (cs : List Character) (i j : Nat) (target : GridPoint) :
    List Character :=
  match cs[i]?, cs[j]? with
  | some self, some character =>
    if ¬ (character.position = target) then cs
    else if character.team = self.team then modifyAt cs j (fun c => c.heal self.power)
    else modifyAt cs j (fun c => c.decreaseHitPoints self.power)
  | _, _ => cs

/-- `Medic::move`. -/
def Medic.move (R : Rules) (self : Character) (dst_coordinates : GridPoint) :
    Character × Option GameException :=
  match self.ensureInMovementRange R dst_coordinates with
  | some e => (self, some e)
  | none => (self.setPosition dst_coordinates, none)

/-! ## `Sniper.cpp` -/

/-- `Sniper::validateTargetInRange`. `range` is an `int` and `DISTANCE_FACTOR` an
integer class constant, so `range / DISTANCE_FACTOR` is the truncating integer
division, and `ceil` of the resulting whole number is that number. -/
def Sniper.validateTargetInRange (R : Rules) (self : Character) (target : GridPoint) :
    Option GameException :=
  let distance := R.distance self.position target
  if distance < Int.tdiv self.range R.sniper.DISTANCE_FACTOR ∨ distance > self.range then
    some .OutOfRange
  else none

/-- `Sniper::attack`: the Sniper left behind and the exception thrown. -/
def Sniper.attack (R : Rules) (self : Character) (target : GridPoint)
    (character_in_dst : Option Character) : Character × Option GameException :=
  match character_in_dst with
  | none => (self, some .CellEmpty)
  | some c =>
    match Sniper.validateTargetInRange R self target with
    | some e => (self, some e)
    | none =>
      if ¬ (c.position = target) ∨ c.team = self.team then (self, some .IllegalTarget)
      else self.decreaseAmmo

/-- `Sniper::reload`. -/
def Sniper.reload (R : Rules) (self : Character) : Character :=
  self.increaseAmmo R.sniper.MAGAZINE_SIZE

/-- `Sniper::dealDamage` called on the Sniper at roster index `i` with the roster
entry at index `j` as `character`: the health write goes to entry `j`, the
`shot_counter` write to entry `i`. -/
def Sniper.dealDamage (R : Rules) (cs : List Character) (i j : Nat) (target : GridPoint) :
    List Character :=
  match cs[i]?, cs[j]? with
  | some self, some character =>
    if ¬ (character.position = target) then cs
    else
      let damage := self.power
      if self.shot_counter = R.sniper.COMBO_FOR_BONUS - 1 then
        modifyAt (modifyAt cs j (fun c => c.decreaseHitPoints (damage * R.sniper.IMPACT_FACTOR)))
          i (fun s => { s with shot_counter := 0 })
      else
        modifyAt (modifyAt cs j (fun c => c.decreaseHitPoints damage))
          i (fun s => { s with shot_counter := s.shot_counter + 1 })
  | _, _ => cs

/-- `Sniper::move`. -/
def Sniper.move (R : Rules) (self : Character) (dst_coordinates : GridPoint) :
    Character × Option GameException :=
  if R.distance self.position dst_coordinates > R.sniper.MOVEMENT then
    (self, some .MoveTooFar)
  else (self.setPosition dst_coordinates, none)

/-! ## Virtual dispatch -/

/-- The virtual call `character.attack(target, character_in_dst)`. -/
def Character.attack (R : Rules) (self : Character) (target : GridPoint)
    (character_in_dst : Option Character) : Character × Option GameException :=
  match self.kind with
  | .MEDIC => Medic.attack R self target character_in_dst
  | .SNIPER => Sniper.attack R self target character_in_dst
  | .SOLDIER => R.soldier.attack self target character_in_dst

/-- The virtual call `character.dealDamage(*characterPtr, target)` with
`character` the roster entry at index `i` and `*characterPtr` the one at `j`. -/
def Character.dealDamage (R : Rules) (cs : List Character) (i j : Nat) (target : GridPoint) :
    List Character :=
  match cs[i]? with
  | none => cs
  | some self =>
    match self.kind with
    | .MEDIC => Medic.dealDamage cs i j target
    | .SNIPER => Sniper.dealDamage R cs i j target
    | .SOLDIER => R.soldier.dealDamage cs i j target

/-- The virtual call `character.reload()`. -/
def Character.reload (R : Rules) (self : Character) : Character :=
  match self.kind with
  | .MEDIC => Medic.reload R self
  | .SNIPER => Sniper.reload R self
  | .SOLDIER => R.soldier.reload self

/-- The virtual call `character.move(dst)`. -/
def Character.move (R : Rules) (self : Character) (dst : GridPoint) :
    Character × Option GameException :=
  match self.kind with
  | .MEDIC => Medic.move R self dst
  | .SNIPER => Sniper.move R self dst
  | .SOLDIER => R.soldier.move self dst

/-! ## `Game.cpp` -/

/-- `Game::isDead`. -/
def Game.isDead (character : Character) : Bool :=
  decide (character.health ≤ 0)

/-- `Game::move`. -/
def Game.move (R : Rules) (g : Game) (src_coordinates dst_coordinates : GridPoint) : Outcome :=
  match g.board.ensurePointOnBoard src_coordinates with
  | some e => ⟨g, some e⟩
  | none =>
    match g.board.ensurePointOnBoard dst_coordinates with
    | some e => ⟨g, some e⟩
    | none =>
      match Board.getCharacterInPoint src_coordinates g.characters with
      | none => ⟨g, some .CellEmpty⟩
      | some (i, character) =>
        match character.ensureInMovementRange R dst_coordinates with
        | some e => ⟨g, some e⟩
        | none =>
          match g.board.ensureAvailablePoint dst_coordinates g.characters with
          | some e => ⟨g, some e⟩
          | none =>
            let r := character.move R dst_coordinates
            ⟨{ g with characters := modifyAt g.characters i (fun _ => r.1) }, r.2⟩

/-- The loop `for (characterPtr : characters) character.dealDamage(*characterPtr, dst)`
of `Game::attack`, `character` being the roster entry at index `i`. -/
def Game.sweep (R : Rules) (cs : List Character) (i : Nat) (dst_coordinates : GridPoint) :
    List Character :=
  (List.range cs.length).foldl (fun acc j => Character.dealDamage R acc i j dst_coordinates) cs

/-- `Game::attack`. -/
def Game.attack (R : Rules) (g : Game) (src_coordinates dst_coordinates : GridPoint) : Outcome :=
  match g.board.ensurePointOnBoard src_coordinates with
  | some e => ⟨g, some e⟩
  | none =>
    match g.board.ensurePointOnBoard dst_coordinates with
    | some e => ⟨g, some e⟩
    | none =>
      match Board.getCharacterInPoint src_coordinates g.characters with
      | none => ⟨g, some .CellEmpty⟩
      | some (i, character) =>
        let r := character.attack R dst_coordinates
          (Board.getCharacterIfExists dst_coordinates g.characters)
        let cs1 := modifyAt g.characters i (fun _ => r.1)
        match r.2 with
        | some e => ⟨{ g with characters := cs1 }, some e⟩
        | none =>
          let cs2 := Game.sweep R cs1 i dst_coordinates
          ⟨{ g with characters := cs2.filter (fun c => !Game.isDead c) }, none⟩

/-- `Game::reload`. -/
def Game.reload (R : Rules) (g : Game) (coordinates : GridPoint) : Outcome :=
  match g.board.ensurePointOnBoard coordinates with
  | some e => ⟨g, some e⟩
  | none =>
    match Board.getCharacterInPoint coordinates g.characters with
    | none => ⟨g, some .CellEmpty⟩
    | some (i, character) =>
      ⟨{ g with characters := modifyAt g.characters i (fun _ => character.reload R) }, none⟩

/-- The scanning loop of `Game::isOver`: `none` when the loop returns `false`
early, otherwise the two flags at loop exit. -/
def Game.isOverLoop : List Character → Bool → Bool → Option (Bool × Bool)
  | [], powerliftersRemain, crossfittersRemain => some (powerliftersRemain, crossfittersRemain)
  | character :: rest, powerliftersRemain, crossfittersRemain =>
    let p := if character.team = Team.POWERLIFTERS then true else powerliftersRemain
    let c := if character.team = Team.POWERLIFTERS then crossfittersRemain else true
    if p && c then none else Game.isOverLoop rest p c

/-- `Game::isOver`. The argument is the winner slot: `none` for a `NULL`
pointer, `some t` for a slot currently holding `t`. The result is the returned
flag and the slot after the call. -/
def Game.isOver (g : Game) (winningTeam : Option Team) : Bool × Option Team :=
  if g.characters.isEmpty then (false, winningTeam)
  else
    match Game.isOverLoop g.characters false false with
    | none => (false, winningTeam)
    | some (powerliftersRemain, crossfittersRemain) =>
      if !powerliftersRemain || !crossfittersRemain then
        (true, winningTeam.map
          (fun _ => if powerliftersRemain then Team.POWERLIFTERS else Team.CROSSFITTERS))
      else (false, winningTeam)

/-- Modelled from the spec: the `Medic`, `Sniper` and `Soldier` constructors pass
their arguments to the `Character` base constructor, missing from the sources;
the unit holds the given values ("holds health, ammo, attack power, attack range,
team, and position"), `Sniper` sets `shot_counter = 0`, and the position is the
default point until the unit is placed by `Game::addCharacter`. -/
def Character.new (kind : CharacterType) (health ammo range power : Int) (team : Team) :
    Character :=
  { kind := kind, health := health, ammo := ammo, range := range, power := power,
    team := team, position := ⟨0, 0⟩, shot_counter := 0 }

/-- `Game::makeCharacter`. The two enumeration arguments are given by their
integer values, since the function itself checks that they name an enumerator. -/
def Game.makeCharacter (type team : Int) (health ammo range power : Int) :
    Except GameException Character :=
  if health ≤ 0 ∨ ammo < 0 ∨ range < 0 ∨ power < 0 ∨
      (team ≠ Team.POWERLIFTERS.code ∧ team ≠ Team.CROSSFITTERS.code) then
    .error .IllegalArgument
  else
    let t : Team := if team = Team.POWERLIFTERS.code then .POWERLIFTERS else .CROSSFITTERS
    if type = CharacterType.SOLDIER.code then
      .ok (Character.new .SOLDIER health ammo range power t)
    else if type = CharacterType.MEDIC.code then
      .ok (Character.new .MEDIC health ammo range power t)
    else if type = CharacterType.SNIPER.code then
      .ok (Character.new .SNIPER health ammo range power t)
    else .error .IllegalArgument

/-! ## Observations used in the statements -/

/-- The fields of a unit that the damage sweep never writes: kind, ammo, range,
power, team and position (everything except health and `shot_counter`). -/
def Character.core (c : Character) : CharacterType × Int × Int × Int × Team × GridPoint :=
  (c.kind, c.ammo, c.range, c.power, c.team, c.position)

/-- One call `Game::attack(src, dst)`: the game it is made on and its two points. -/
structure AttackAction where
  game : Game
  src : GridPoint
  dst : GridPoint

/-- The attack power of the acting unit. -/
def AttackAction.power (s : AttackAction) : Option Int :=
  (Board.getCharacterInPoint s.src s.game.characters).map (fun r => r.2.power)

/-- The roster of `Game::attack` right after the damage loop, before the dead
are erased (the roster before the call when nobody stands at `src`). -/
def AttackAction.swept (R : Rules) (s : AttackAction) : List Character :=
  match Board.getCharacterInPoint s.src s.game.characters with
  | none => s.game.characters
  | some (i, character) =>
    Game.sweep R
      (modifyAt s.game.characters i (fun _ =>
        (character.attack R s.dst (Board.getCharacterIfExists s.dst s.game.characters)).1))
      i s.dst

/-- The health the unit standing at `dst` has lost in the damage loop. -/
def AttackAction.damage (R : Rules) (s : AttackAction) : Option Int :=
  match Board.getCharacterInPoint s.dst s.game.characters with
  | none => none
  | some (k, t) => (s.swept R)[k]?.map (fun c => t.health - c.health)

/-- What the damage sweep towards `target` must leave alone in a unit: its
position, range, power and team, and its health unless it stands on `target`. -/
def Character.frame (target : GridPoint) (c : Character) :
    GridPoint × Int × Int × Team × Option Int :=
  (c.position, c.range, c.power, c.team, if c.position = target then none else some c.health)

/-- The effect of `Medic::dealDamage` of the Medic `self` on one unit `c`, as a
function of that unit: heal an ally on `target`, damage an enemy on `target`,
leave any other unit alone. -/
def Medic.damaged (self : Character) (target : GridPoint) (c : Character) : Character :=
  if ¬ (c.position = target) then c
  else if c.team = self.team then c.heal self.power
  else c.decreaseHitPoints self.power

/-! ## A concrete instance for evaluating the definitions -/

/-- A Soldier whose member functions do nothing; it only fills the `soldier`
field of `sampleRules` and is never the acting unit in an evaluation below. -/
def inertSoldier : SoldierImpl :=
  { MOVEMENT := 3
    attack := fun c _ _ => (c, none)
    dealDamage := fun cs _ _ _ => cs
    reload := fun c => c
    move := fun c p => (c.setPosition p, none) }

/-- Sample rule set: Manhattan distance, Medic with magazine 5 and movement 5,
Sniper with magazine 2, movement 4, distance factor 2, impact factor 2 and a
bonus on every third shot. -/
def sampleRules : Rules :=
  { distance := fun p q => ((p.row - q.row).natAbs + (p.col - q.col).natAbs : Nat)
    medic := { MAGAZINE_SIZE := 5, MOVEMENT := 5 }
    sniper := { MAGAZINE_SIZE := 2, MOVEMENT := 4, DISTANCE_FACTOR := 2,
                IMPACT_FACTOR := 2, COMBO_FOR_BONUS := 3 }
    soldier := inertSoldier }

/-- A Medic of the POWERLIFTERS standing at (0,0). -/
def sampleMedic : Character :=
  { kind := .MEDIC, health := 10, ammo := 1, range := 3, power := 4,
    team := .POWERLIFTERS, position := ⟨0, 0⟩, shot_counter := 0 }

/-- A Sniper of the CROSSFITTERS standing at (0,2). -/
def sampleSniper : Character :=
  { kind := .SNIPER, health := 5, ammo := 2, range := 3, power := 3,
    team := .CROSSFITTERS, position := ⟨0, 2⟩, shot_counter := 0 }

/-- A 4×4 board holding `sampleMedic` and `sampleSniper`. -/
def sampleGame : Game :=
  { characters := [sampleMedic, sampleSniper], board := ⟨4, 4⟩ }

/-- First attack of `sampleSniper` on `sampleMedic`. -/
def sampleShot1 : AttackAction :=
  ⟨sampleGame, ⟨0, 2⟩, ⟨0, 0⟩⟩

/-- Second attack, on the game the first one leaves. -/
def sampleShot2 : AttackAction :=
  ⟨(Game.attack sampleRules sampleShot1.game ⟨0, 2⟩ ⟨0, 0⟩).game, ⟨0, 2⟩, ⟨0, 0⟩⟩

/-- Third attack, after the second one and a reload of the Sniper. -/
def sampleShot3 : AttackAction :=
  ⟨(Game.reload sampleRules
      (Game.attack sampleRules sampleShot2.game ⟨0, 2⟩ ⟨0, 0⟩).game ⟨0, 2⟩).game,
    ⟨0, 2⟩, ⟨0, 0⟩⟩

/-- C1: `Game::makeCharacter` fails with `IllegalArgument` exactly when health is
not positive, or ammo, range or power is negative, or the team is neither of the
two teams, or the type is none of the three kinds; in every other case it returns
a unit of the requested kind with exactly the given health, ammo, range, power
and team (and it never fails with any other exception). -/
theorem makeCharacter_illegal_iff (type team health ammo range power : Int) :
    (Game.makeCharacter type team health ammo range power = .error .IllegalArgument ↔
      (health ≤ 0 ∨ ammo < 0 ∨ range < 0 ∨ power < 0 ∨
        (team ≠ Team.POWERLIFTERS.code ∧ team ≠ Team.CROSSFITTERS.code) ∨
        (type ≠ CharacterType.SOLDIER.code ∧ type ≠ CharacterType.MEDIC.code ∧
          type ≠ CharacterType.SNIPER.code))) ∧
    (Game.makeCharacter type team health ammo range power = .error .IllegalArgument ∨
      ∃ c, Game.makeCharacter type team health ammo range power = .ok c ∧
        c.kind.code = type ∧ c.team.code = team ∧ c.health = health ∧ c.ammo = ammo ∧
        c.range = range ∧ c.power = power) := by
  unfold Game.makeCharacter
  by_cases h1 : health ≤ 0 ∨ ammo < 0 ∨ range < 0 ∨ power < 0 ∨
      (team ≠ Team.POWERLIFTERS.code ∧ team ≠ Team.CROSSFITTERS.code)
  · rw [if_pos h1]
    exact ⟨⟨fun _ => by tauto, fun _ => rfl⟩, Or.inl rfl⟩
  · rw [if_neg h1]
    have hteam : team = Team.POWERLIFTERS.code ∨ team = Team.CROSSFITTERS.code := by tauto
    have hcode : (if team = Team.POWERLIFTERS.code then Team.POWERLIFTERS
        else Team.CROSSFITTERS).code = team := by
      rcases hteam with h | h <;> simp [h, Team.code]
    have hvalid : ∀ k : CharacterType, type = k.code →
        ¬ (health ≤ 0 ∨ ammo < 0 ∨ range < 0 ∨ power < 0 ∨
          (team ≠ Team.POWERLIFTERS.code ∧ team ≠ Team.CROSSFITTERS.code) ∨
          (type ≠ CharacterType.SOLDIER.code ∧ type ≠ CharacterType.MEDIC.code ∧
            type ≠ CharacterType.SNIPER.code)) := by
      intro k hk hbad
      cases k <;> tauto
    by_cases hs : type = CharacterType.SOLDIER.code
    · rw [if_pos hs]
      exact ⟨⟨fun h => (by cases h), fun h => absurd h (hvalid _ hs)⟩,
        Or.inr ⟨_, rfl, hs.symm, hcode, rfl, rfl, rfl, rfl⟩⟩
    · rw [if_neg hs]
      by_cases hm : type = CharacterType.MEDIC.code
      · rw [if_pos hm]
        exact ⟨⟨fun h => (by cases h), fun h => absurd h (hvalid _ hm)⟩,
          Or.inr ⟨_, rfl, hm.symm, hcode, rfl, rfl, rfl, rfl⟩⟩
      · rw [if_neg hm]
        by_cases hn : type = CharacterType.SNIPER.code
        · rw [if_pos hn]
          exact ⟨⟨fun h => (by cases h), fun h => absurd h (hvalid _ hn)⟩,
            Or.inr ⟨_, rfl, hn.symm, hcode, rfl, rfl, rfl, rfl⟩⟩
        · rw [if_neg hn]
          exact ⟨⟨fun _ => by tauto, fun _ => rfl⟩, Or.inl rfl⟩

/-- The scanning loop of `isOver`, started with at most one flag set, stops early
exactly when both teams show up. -/
theorem isOverLoop_eq (cs : List Character) (p c : Bool) (h : ¬ (p = true ∧ c = true)) :
    Game.isOverLoop cs p c =
      if (p || cs.any (fun x => decide (x.team = Team.POWERLIFTERS))) &&
          (c || cs.any (fun x => decide (x.team = Team.CROSSFITTERS))) then none
      else some (p || cs.any (fun x => decide (x.team = Team.POWERLIFTERS)),
                 c || cs.any (fun x => decide (x.team = Team.CROSSFITTERS))) := by
  induction cs generalizing p c with
  | nil =>
    cases p <;> cases c <;> simp [Game.isOverLoop] at h ⊢
  | cons x xs ih =>
    unfold Game.isOverLoop
    cases p <;> cases c
    · cases hx : x.team <;> simp [ih, hx]
    · cases hx : x.team <;> simp [ih, hx]
    · cases hx : x.team <;> simp [ih, hx]
    · exact absurd (And.intro rfl rfl) h

/-- C2: `Game::isOver` returns false on an empty roster, returns false when the
roster holds at least one unit of each team, and otherwise (a non-empty roster
whose units are all of one team `t`) returns true and sets a supplied winner
slot to `t` (a `NULL` slot stays `NULL`). -/
theorem isOver_cases (g : Game) (winningTeam : Option Team) :
    (g.characters = [] → (g.isOver winningTeam).1 = false) ∧
    ((∃ a ∈ g.characters, a.team = Team.POWERLIFTERS) →
      (∃ b ∈ g.characters, b.team = Team.CROSSFITTERS) →
      (g.isOver winningTeam).1 = false) ∧
    (∀ t : Team, g.characters ≠ [] → (∀ c ∈ g.characters, c.team = t) →
      (g.isOver winningTeam).1 = true ∧
      (g.isOver winningTeam).2 = winningTeam.map (fun _ => t)) := by
  refine ⟨fun h => ?_, fun hp hc => ?_, fun t hne hall => ?_⟩
  · simp [Game.isOver, h]
  · have h1 : g.characters.any (fun x => decide (x.team = Team.POWERLIFTERS)) = true := by
      obtain ⟨a, ha, hat⟩ := hp
      exact List.any_eq_true.mpr ⟨a, ha, by simp [hat]⟩
    have h2 : g.characters.any (fun x => decide (x.team = Team.CROSSFITTERS)) = true := by
      obtain ⟨b, hb, hbt⟩ := hc
      exact List.any_eq_true.mpr ⟨b, hb, by simp [hbt]⟩
    unfold Game.isOver
    split
    · rfl
    · rw [isOverLoop_eq _ _ _ (by simp), h1, h2]
      simp
  · have hemp : g.characters.isEmpty = false := by
      cases hcs : g.characters with
      | nil => exact absurd hcs hne
      | cons _ _ => rfl
    obtain ⟨x, hx⟩ := List.exists_mem_of_ne_nil _ hne
    unfold Game.isOver
    rw [hemp, isOverLoop_eq _ _ _ (by simp)]
    cases t
    · have h1 : g.characters.any (fun x => decide (x.team = Team.POWERLIFTERS)) = true :=
        List.any_eq_true.mpr ⟨x, hx, by simp [hall x hx]⟩
      have h2 : g.characters.any (fun x => decide (x.team = Team.CROSSFITTERS)) = false := by
        rw [List.any_eq_false]
        intro y hy
        simp [hall y hy]
      simp [h1, h2]
    · have h1 : g.characters.any (fun x => decide (x.team = Team.POWERLIFTERS)) = false := by
        rw [List.any_eq_false]
        intro y hy
        simp [hall y hy]
      have h2 : g.characters.any (fun x => decide (x.team = Team.CROSSFITTERS)) = true :=
        List.any_eq_true.mpr ⟨x, hx, by simp [hall x hx]⟩
      simp [h1, h2]

/-- C3: for a Medic and for a Sniper, whatever the ammo before, `reload` leaves
the unit with exactly the variant's `MAGAZINE_SIZE` as ammo and changes nothing
else, and reloading twice gives the same unit as reloading once. -/
theorem reload_sets_magazine (R : Rules) (c : Character) :
    ((Medic.reload R c).ammo = R.medic.MAGAZINE_SIZE ∧
      Medic.reload R c = { c with ammo := R.medic.MAGAZINE_SIZE } ∧
      Medic.reload R (Medic.reload R c) = Medic.reload R c) ∧
    ((Sniper.reload R c).ammo = R.sniper.MAGAZINE_SIZE ∧
      Sniper.reload R c = { c with ammo := R.sniper.MAGAZINE_SIZE } ∧
      Sniper.reload R (Sniper.reload R c) = Sniper.reload R c) := by
  simp [Medic.reload, Sniper.reload, Character.increaseAmmo]

/-! ## Roster lemmas -/

theorem modifyAt_length (cs : List Character) (k : Nat) (f : Character → Character) :
    (modifyAt cs k f).length = cs.length := by
  induction cs generalizing k with
  | nil => rfl
  | cons c cs ih =>
    cases k with
    | zero => rfl
    | succ k => simp [modifyAt, ih]

theorem modifyAt_getElem_opt (cs : List Character) (k : Nat) (f : Character → Character)
    (j : Nat) : (modifyAt cs k f)[j]? = if j = k then cs[j]?.map f else cs[j]? := by
  induction cs generalizing k j with
  | nil => simp [modifyAt]
  | cons c cs ih =>
    cases k with
    | zero =>
      cases j with
      | zero => simp [modifyAt]
      | succ j => simp [modifyAt]
    | succ k =>
      cases j with
      | zero => simp [modifyAt]
      | succ j => simp [modifyAt, ih]

theorem modifyAt_id (cs : List Character) (k : Nat) (f : Character → Character)
    (h : ∀ c, cs[k]? = some c → f c = c) : modifyAt cs k f = cs := by
  induction cs generalizing k with
  | nil => rfl
  | cons c cs ih =>
    cases k with
    | zero =>
      have := h c (by simp)
      simp [modifyAt, this]
    | succ k =>
      have := ih k (fun x hx => h x (by simpa using hx))
      simp [modifyAt, this]

theorem modifyAt_map {β : Type} (π : Character → β) (cs : List Character) (k : Nat)
    (f : Character → Character) (h : ∀ c, π (f c) = π c) :
    (modifyAt cs k f).map π = cs.map π := by
  induction cs generalizing k with
  | nil => rfl
  | cons c cs ih =>
    cases k with
    | zero => simp [modifyAt, h]
    | succ k => simp [modifyAt, ih]

theorem modifyAt_eq_set (cs : List Character) (k : Nat) (f : Character → Character)
    (c : Character) (h : cs[k]? = some c) : modifyAt cs k f = cs.set k (f c) := by
  induction cs generalizing k with
  | nil => simp at h
  | cons x cs ih =>
    cases k with
    | zero =>
      simp at h
      simp [modifyAt, h]
    | succ k =>
      simp at h
      simp [modifyAt, ih k h]

theorem getCharacterInPoint_some (p : GridPoint) (cs : List Character) (i : Nat)
    (c : Character) (h : Board.getCharacterInPoint p cs = some (i, c)) :
    cs[i]? = some c ∧ c.position = p := by
  induction cs generalizing i with
  | nil => simp [Board.getCharacterInPoint] at h
  | cons x xs ih =>
    unfold Board.getCharacterInPoint at h
    by_cases hx : x.position = p
    · rw [if_pos hx] at h
      simp only [Option.some.injEq, Prod.mk.injEq] at h
      obtain ⟨rfl, rfl⟩ := h
      exact ⟨by simp, hx⟩
    · rw [if_neg hx] at h
      cases hr : Board.getCharacterInPoint p xs with
      | none => simp [hr] at h
      | some r =>
        obtain ⟨k, y⟩ := r
        simp only [hr, Option.map_some', Option.some.injEq, Prod.mk.injEq] at h
        obtain ⟨rfl, rfl⟩ := h
        have := ih k hr
        simpa using this

theorem getCharacterInPoint_first (p : GridPoint) (cs : List Character) (i : Nat)
    (c : Character) (h : Board.getCharacterInPoint p cs = some (i, c)) :
    ∀ j x, j < i → cs[j]? = some x → x.position ≠ p := by
  induction cs generalizing i with
  | nil => simp [Board.getCharacterInPoint] at h
  | cons y ys ih =>
    unfold Board.getCharacterInPoint at h
    by_cases hy : y.position = p
    · rw [if_pos hy] at h
      simp only [Option.some.injEq, Prod.mk.injEq] at h
      intro j x hj
      omega
    · rw [if_neg hy] at h
      cases hr : Board.getCharacterInPoint p ys with
      | none => simp [hr] at h
      | some r =>
        obtain ⟨k, z⟩ := r
        simp only [hr, Option.map_some', Option.some.injEq, Prod.mk.injEq] at h
        obtain ⟨rfl, rfl⟩ := h
        intro j x hj hx
        cases j with
        | zero =>
          simp at hx
          subst hx
          exact hy
        | succ j => exact ih k hr j x (by omega) (by simpa using hx)

theorem getCharacterInPoint_none (p : GridPoint) (cs : List Character) :
    Board.getCharacterInPoint p cs = none ↔ ∀ c ∈ cs, c.position ≠ p := by
  induction cs with
  | nil => simp [Board.getCharacterInPoint]
  | cons x xs ih =>
    unfold Board.getCharacterInPoint
    by_cases hx : x.position = p
    · simp [hx]
    · simp [hx, ih]

/-- With pairwise distinct positions the unit standing at a point is the one
the lookup returns. -/
theorem getCharacterInPoint_of_nodup (p : GridPoint) (cs : List Character)
    (hnd : (cs.map (fun c => c.position)).Nodup) (k : Nat) (t : Character)
    (hk : cs[k]? = some t) (ht : t.position = p) :
    Board.getCharacterInPoint p cs = some (k, t) := by
  induction cs generalizing k with
  | nil => simp at hk
  | cons x xs ih =>
    simp only [List.map_cons, List.nodup_cons, List.mem_map, not_exists, not_and] at hnd
    unfold Board.getCharacterInPoint
    cases k with
    | zero =>
      simp at hk
      subst hk
      simp [ht]
    | succ k =>
      simp at hk
      have hmem : t ∈ xs := List.getElem?_mem hk
      have hx : ¬ x.position = p := by
        intro hxp
        exact hnd.1 t hmem (by rw [ht, hxp])
      rw [if_neg hx, ih hnd.2 k hk]
      rfl

/-! ## Unit-level facts about `attack` and `move` -/

theorem decreaseAmmo_throw_unchanged (self : Character)
    (h : self.decreaseAmmo.2 ≠ none) : self.decreaseAmmo.1 = self := by
  unfold Character.decreaseAmmo at h ⊢
  by_cases ha : self.ammo ≤ 0
  · simp [ha]
  · simp [ha] at h

theorem medic_attack_throw_unchanged (R : Rules) (self : Character) (target : GridPoint)
    (occ : Option Character) (h : (Medic.attack R self target occ).2 ≠ none) :
    (Medic.attack R self target occ).1 = self := by
  unfold Medic.attack at h ⊢
  cases hv : Medic.validateTargetInRange R self target with
  | some e => simp
  | none =>
    simp only [hv] at h ⊢
    cases occ with
    | none => by_cases ha : self.ammo ≤ 0 <;> simp [ha]
    | some c =>
      simp only at h ⊢
      by_cases ht : c.team ≠ self.team
      · rw [if_pos ht] at h ⊢
        exact decreaseAmmo_throw_unchanged self h
      · rw [if_neg ht]
        by_cases hp : c.position = self.position <;> simp [hp]

theorem sniper_attack_throw_unchanged (R : Rules) (self : Character) (target : GridPoint)
    (occ : Option Character) (h : (Sniper.attack R self target occ).2 ≠ none) :
    (Sniper.attack R self target occ).1 = self := by
  unfold Sniper.attack at h ⊢
  cases occ with
  | none => simp
  | some c =>
    simp only at h ⊢
    cases hv : Sniper.validateTargetInRange R self target with
    | some e => simp
    | none =>
      simp only [hv] at h ⊢
      by_cases hbad : ¬ (c.position = target) ∨ c.team = self.team
      · rw [if_pos hbad]
      · rw [if_neg hbad] at h ⊢
        exact decreaseAmmo_throw_unchanged self h

theorem character_attack_throw_unchanged (R : Rules) (self : Character) (target : GridPoint)
    (occ : Option Character)
    (hS : self.kind = .SOLDIER → (R.soldier.attack self target occ).2 ≠ none →
      (R.soldier.attack self target occ).1 = self)
    (h : (self.attack R target occ).2 ≠ none) : (self.attack R target occ).1 = self := by
  unfold Character.attack at h ⊢
  cases hk : self.kind
  · simp only [hk] at h ⊢
    exact hS hk h
  · simp only [hk] at h ⊢
    exact medic_attack_throw_unchanged R _ _ _ h
  · simp only [hk] at h ⊢
    exact sniper_attack_throw_unchanged R _ _ _ h

/-! ## `Game::attack` and `Game::move`: failures -/

/-- C4: a failed `Game::attack` is atomic. Whatever the game state and the pair
`(src, dst)`, if the call throws (out of bounds, `CellEmpty`, `OutOfRange`,
`IllegalTarget`, `OutOfAmmo`), the game it leaves behind is the game before the
call: same roster, every unit with its health, ammo, position and combo counter.
The Soldier's own `attack`, whose source is not available, is assumed to leave
the Soldier unchanged when it throws. -/
theorem attack_failure_leaves_state (R : Rules) (g : Game) (src dst : GridPoint)
    (hS : ∀ c t o, (R.soldier.attack c t o).2 ≠ none → (R.soldier.attack c t o).1 = c)
    (h : (Game.attack R g src dst).thrown ≠ none) :
    (Game.attack R g src dst).game = g := by
  unfold Game.attack at h ⊢
  cases hs : g.board.ensurePointOnBoard src with
  | some e => simp
  | none =>
    cases hd : g.board.ensurePointOnBoard dst with
    | some e => simp
    | none =>
      cases hlook : Board.getCharacterInPoint src g.characters with
      | none => simp
      | some r =>
        obtain ⟨i, character⟩ := r
        simp only [hs, hd, hlook] at h ⊢
        have hget := (getCharacterInPoint_some _ _ _ _ hlook).1
        cases hr : (character.attack R dst (Board.getCharacterIfExists dst g.characters)).2 with
        | none => simp [hr] at h
        | some e =>
          have hsame := character_attack_throw_unchanged R character dst
            (Board.getCharacterIfExists dst g.characters) (fun _ => hS _ _ _) (by simp [hr])
          simp only [hr, hsame]
          rw [modifyAt_id _ _ _ (fun c hc => by rw [hget] at hc; exact Option.some.inj hc)]

/-- A unit at `src` whose allowance is exceeded makes `Game::move` stop at the
range check. -/
theorem move_stops_at_range_check (R : Rules) (g : Game) (src dst : GridPoint) (i : Nat)
    (c : Character) (hsrc : g.board.ensurePointOnBoard src = none)
    (hdst : g.board.ensurePointOnBoard dst = none)
    (hc : Board.getCharacterInPoint src g.characters = some (i, c))
    (hfar : R.distance src dst > c.getMovement R) :
    Game.move R g src dst = ⟨g, some .MoveTooFar⟩ := by
  have hpos := (getCharacterInPoint_some _ _ _ _ hc).2
  have hrange : c.ensureInMovementRange R dst = some .MoveTooFar := by
    unfold Character.ensureInMovementRange
    rw [hpos, if_pos hfar]
  simp [Game.move, hsrc, hdst, hc, hrange]

/-- C5: with `src` and `dst` on the board and a unit at `src` (in particular a
Medic or a Sniper) whose movement allowance is smaller than the distance from
`src` to `dst`, `Game::move` throws `MoveTooFar`, whether or not `dst` is
occupied, and leaves the whole game state as it was. -/
theorem move_too_far (R : Rules) (g : Game) (src dst : GridPoint) (i : Nat) (c : Character)
    (hsrc : g.board.ensurePointOnBoard src = none)
    (hdst : g.board.ensurePointOnBoard dst = none)
    (hc : Board.getCharacterInPoint src g.characters = some (i, c))
    (hfar : R.distance src dst > c.getMovement R) :
    Game.move R g src dst = ⟨g, some .MoveTooFar⟩ :=
  move_stops_at_range_check R g src dst i c hsrc hdst hc hfar

/-- Witness for C4: the Medic of `sampleGame` attacks the empty square (0,1);
the call throws and the game is unchanged. -/
theorem attack_failure_leaves_state_witness :
    (Game.attack sampleRules sampleGame ⟨0, 0⟩ ⟨0, 1⟩).thrown ≠ none ∧
    (Game.attack sampleRules sampleGame ⟨0, 0⟩ ⟨0, 1⟩).game = sampleGame :=
  ⟨by decide,
   attack_failure_leaves_state sampleRules sampleGame ⟨0, 0⟩ ⟨0, 1⟩
     (fun c t o h => absurd rfl h) (by decide)⟩

/-- Witness for C5: the Medic of `sampleGame` (movement 5) cannot move from (0,0)
to (3,3), which is 6 away. -/
theorem move_too_far_witness :
    Game.move sampleRules sampleGame ⟨0, 0⟩ ⟨3, 3⟩ = ⟨sampleGame, some .MoveTooFar⟩ :=
  move_too_far sampleRules sampleGame ⟨0, 0⟩ ⟨3, 3⟩ 0 sampleMedic
    (by decide) (by decide) (by decide) (by decide)

/-- The virtual `move` of a Medic or a Sniper that has passed
`ensureInMovementRange` sets the position and throws nothing. -/
theorem character_move_in_range (R : Rules) (c : Character) (dst : GridPoint)
    (hk : c.kind ≠ .SOLDIER) (hr : c.ensureInMovementRange R dst = none) :
    c.move R dst = ({ c with position := dst }, none) := by
  unfold Character.ensureInMovementRange at hr
  have hnot : ¬ (R.distance c.position dst > c.getMovement R) := by
    intro hgt
    rw [if_pos hgt] at hr
    cases hr
  unfold Character.move
  cases hkind : c.kind
  · exact absurd hkind hk
  · have : c.ensureInMovementRange R dst = none := by
      unfold Character.ensureInMovementRange
      rw [if_neg hnot]
    simp [Medic.move, this, Character.setPosition, hkind]
  · have hm : c.getMovement R = R.sniper.MOVEMENT := by
      unfold Character.getMovement
      rw [hkind]
    rw [hm] at hnot
    simp [Sniper.move, hnot, Character.setPosition, hkind]

/-- C6: error precedence in `Game::move`. (1) If `src` or `dst` is off the board
the call throws the out-of-bounds error, whatever else holds. (2) Otherwise, if no
unit stands at `src` it throws `CellEmpty`, even when `dst` is too far or
occupied. (3) Otherwise, if `dst` is beyond the unit's movement allowance it
throws `MoveTooFar`, even when `dst` is occupied. (4) For a Medic or Sniper at
`src`, `CellOccupied` is thrown only when both points are on the board, a unit
stands at `src`, `dst` is within its allowance and `dst` is occupied. In cases
(1) to (3) the game is left unchanged. -/
theorem move_error_precedence (R : Rules) (g : Game) (src dst : GridPoint) :
    ((g.board.ensurePointOnBoard src = some .OutOfBounds ∨
        g.board.ensurePointOnBoard dst = some .OutOfBounds) →
      Game.move R g src dst = ⟨g, some .OutOfBounds⟩) ∧
    (g.board.ensurePointOnBoard src = none → g.board.ensurePointOnBoard dst = none →
      Board.getCharacterInPoint src g.characters = none →
      Game.move R g src dst = ⟨g, some .CellEmpty⟩) ∧
    (∀ i c, g.board.ensurePointOnBoard src = none → g.board.ensurePointOnBoard dst = none →
      Board.getCharacterInPoint src g.characters = some (i, c) →
      R.distance src dst > c.getMovement R →
      Game.move R g src dst = ⟨g, some .MoveTooFar⟩) ∧
    ((∀ i c, Board.getCharacterInPoint src g.characters = some (i, c) → c.kind ≠ .SOLDIER) →
      (Game.move R g src dst).thrown = some .CellOccupied →
      g.board.ensurePointOnBoard src = none ∧ g.board.ensurePointOnBoard dst = none ∧
      ∃ i c, Board.getCharacterInPoint src g.characters = some (i, c) ∧
        ¬ (R.distance src dst > c.getMovement R) ∧
        Board.getCharacterIfExists dst g.characters ≠ none) := by
  have hbound : ∀ p, g.board.ensurePointOnBoard p = none ∨
      g.board.ensurePointOnBoard p = some .OutOfBounds := by
    intro p
    unfold Board.ensurePointOnBoard
    split
    · exact Or.inl rfl
    · exact Or.inr rfl
  refine ⟨?_, ?_, ?_, ?_⟩
  · intro h
    rcases hbound src with hs | hs
    · rcases h with h | h
      · rw [hs] at h
        cases h
      · simp [Game.move, hs, h]
    · simp [Game.move, hs]
  · intro hs hd hl
    simp [Game.move, hs, hd, hl]
  · intro i c hs hd hl hfar
    exact move_stops_at_range_check R g src dst i c hs hd hl hfar
  · intro hkind hthrown
    unfold Game.move at hthrown
    rcases hbound src with hs | hs
    · rcases hbound dst with hd | hd
      · refine ⟨hs, hd, ?_⟩
        cases hl : Board.getCharacterInPoint src g.characters with
        | none => simp [hs, hd, hl] at hthrown
        | some r =>
          obtain ⟨i, c⟩ := r
          refine ⟨i, c, rfl, ?_⟩
          simp only [hs, hd, hl] at hthrown
          have hpos := (getCharacterInPoint_some _ _ _ _ hl).2
          cases hr : c.ensureInMovementRange R dst with
          | some e =>
            have he : e = .MoveTooFar := by
              unfold Character.ensureInMovementRange at hr
              split at hr
              · exact (Option.some.inj hr).symm
              · cases hr
            subst he
            simp only [hr] at hthrown
            cases hthrown
          | none =>
            have hnot : ¬ (R.distance src dst > c.getMovement R) := by
              intro hgt
              unfold Character.ensureInMovementRange at hr
              rw [hpos, if_pos hgt] at hr
              cases hr
            refine ⟨hnot, ?_⟩
            intro hocc
            have hav : g.board.ensureAvailablePoint dst g.characters = none := by
              simp [Board.ensureAvailablePoint, hd, hocc]
            simp only [hr, hav] at hthrown
            rw [character_move_in_range R c dst (hkind i c hl) hr] at hthrown
            cases hthrown
      · simp [hs, hd] at hthrown
    · simp [hs] at hthrown

/-- C7: when `Game::move(src, dst)` succeeds, the unit at `src` being a Medic or a
Sniper, the roster after the call is the roster before with the entry of that
unit replaced by the same unit at position `dst` (health, ammo, range, power,
team and combo counter as before); every other entry, the order of the roster
and the board are unchanged. -/
theorem move_success_frame (R : Rules) (g g' : Game) (src dst : GridPoint) (i : Nat)
    (c : Character) (hl : Board.getCharacterInPoint src g.characters = some (i, c))
    (hk : c.kind ≠ .SOLDIER) (h : Game.move R g src dst = ⟨g', none⟩) :
    g'.characters = g.characters.set i { c with position := dst } ∧
    g'.board = g.board := by
  unfold Game.move at h
  cases hs : g.board.ensurePointOnBoard src with
  | some e => simp [hs] at h
  | none =>
    cases hd : g.board.ensurePointOnBoard dst with
    | some e => simp [hs, hd] at h
    | none =>
      simp only [hs, hd, hl] at h
      cases hr : c.ensureInMovementRange R dst with
      | some e => simp [hr] at h
      | none =>
        cases hav : g.board.ensureAvailablePoint dst g.characters with
        | some e => simp [hr, hav] at h
        | none =>
          simp only [hr, hav] at h
          rw [character_move_in_range R c dst hk hr] at h
          simp only [Outcome.mk.injEq, and_true] at h
          refine ⟨?_, ?_⟩
          · rw [← h]
            exact modifyAt_eq_set _ _ _ c (getCharacterInPoint_some _ _ _ _ hl).1
          · rw [← h]

/-- Witness for C7: the Medic of `sampleGame` moves from (0,0) to (1,1). -/
theorem move_success_frame_witness :
    (Game.move sampleRules sampleGame ⟨0, 0⟩ ⟨1, 1⟩).game.characters =
      sampleGame.characters.set 0 { sampleMedic with position := ⟨1, 1⟩ } ∧
    (Game.move sampleRules sampleGame ⟨0, 0⟩ ⟨1, 1⟩).game.board = sampleGame.board :=
  move_success_frame sampleRules sampleGame
    (Game.move sampleRules sampleGame ⟨0, 0⟩ ⟨1, 1⟩).game ⟨0, 0⟩ ⟨1, 1⟩ 0 sampleMedic
    (by decide) (by decide) (by decide)

/-! ## The damage sweep -/

theorem medic_dealDamage_core (cs : List Character) (i j : Nat) (target : GridPoint) :
    (Medic.dealDamage cs i j target).map Character.core = cs.map Character.core := by
  unfold Medic.dealDamage
  cases hi : cs[i]? with
  | none => simp
  | some self =>
    cases hj : cs[j]? with
    | none => simp
    | some character =>
      simp only
      by_cases hp : ¬ (character.position = target)
      · rw [if_pos hp]
      · rw [if_neg hp]
        by_cases ht : character.team = self.team
        · rw [if_pos ht]
          exact modifyAt_map _ _ _ _ (fun _ => rfl)
        · rw [if_neg ht]
          exact modifyAt_map _ _ _ _ (fun _ => rfl)

theorem sniper_dealDamage_core (R : Rules) (cs : List Character) (i j : Nat)
    (target : GridPoint) :
    (Sniper.dealDamage R cs i j target).map Character.core = cs.map Character.core := by
  unfold Sniper.dealDamage
  cases hi : cs[i]? with
  | none => simp
  | some self =>
    cases hj : cs[j]? with
    | none => simp
    | some character =>
      simp only
      by_cases hp : ¬ (character.position = target)
      · rw [if_pos hp]
      · rw [if_neg hp]
        by_cases hc : self.shot_counter = R.sniper.COMBO_FOR_BONUS - 1
        · rw [if_pos hc]
          refine (modifyAt_map Character.core _ _ _ ?_).trans
            (modifyAt_map Character.core _ _ _ ?_) <;> intro c <;> rfl
        · rw [if_neg hc]
          refine (modifyAt_map Character.core _ _ _ ?_).trans
            (modifyAt_map Character.core _ _ _ ?_) <;> intro c <;> rfl

/-- Two rosters with the same core columns have units of the same kind at `i`. -/
theorem kind_of_core_eq (cs cs' : List Character)
    (h : cs'.map Character.core = cs.map Character.core) (i : Nat)
    (hk : ∀ a, cs[i]? = some a → a.kind ≠ .SOLDIER) :
    ∀ a, cs'[i]? = some a → a.kind ≠ .SOLDIER := by
  intro a ha
  have h1 : (cs'.map Character.core)[i]? = (cs.map Character.core)[i]? := by rw [h]
  simp only [List.getElem?_map, ha, Option.map_some'] at h1
  cases hb : cs[i]? with
  | none => simp [hb] at h1
  | some b =>
    simp only [hb, Option.map_some', Option.some.injEq] at h1
    have hkind : a.kind = b.kind := congrArg Prod.fst h1
    rw [hkind]
    exact hk b hb

/-- Two rosters with the same core columns have units at the same positions. -/
theorem position_of_core_eq (cs cs' : List Character)
    (h : cs'.map Character.core = cs.map Character.core) (j : Nat) (c' : Character)
    (hc : cs'[j]? = some c') : ∃ c, cs[j]? = some c ∧ c.position = c'.position := by
  have h1 : (cs'.map Character.core)[j]? = (cs.map Character.core)[j]? := by rw [h]
  simp only [List.getElem?_map, hc, Option.map_some'] at h1
  cases hb : cs[j]? with
  | none => simp [hb] at h1
  | some b =>
    simp only [hb, Option.map_some', Option.some.injEq] at h1
    refine ⟨b, rfl, ?_⟩
    have := congrArg (fun x => x.2.2.2.2.2) h1
    exact this.symm

theorem character_dealDamage_core (R : Rules) (cs : List Character) (i j : Nat)
    (target : GridPoint) (hk : ∀ a, cs[i]? = some a → a.kind ≠ .SOLDIER) :
    (Character.dealDamage R cs i j target).map Character.core = cs.map Character.core := by
  unfold Character.dealDamage
  cases hi : cs[i]? with
  | none => simp
  | some self =>
    simp only
    cases hkind : self.kind
    · exact absurd hkind (hk self hi)
    · exact medic_dealDamage_core cs i j target
    · exact sniper_dealDamage_core R cs i j target

/-- Dealing damage to a roster entry that does not stand on the target square
changes nothing. -/
theorem character_dealDamage_off_target (R : Rules) (cs : List Character) (i j : Nat)
    (target : GridPoint) (hk : ∀ a, cs[i]? = some a → a.kind ≠ .SOLDIER)
    (hj : ∀ c, cs[j]? = some c → c.position ≠ target) :
    Character.dealDamage R cs i j target = cs := by
  unfold Character.dealDamage
  cases hi : cs[i]? with
  | none => simp
  | some self =>
    simp only
    cases hkind : self.kind
    · exact absurd hkind (hk self hi)
    · simp only [Medic.dealDamage, hi]
      cases hc : cs[j]? with
      | none => simp
      | some character => simp [hj character hc]
    · simp only [Sniper.dealDamage, hi]
      cases hc : cs[j]? with
      | none => simp
      | some character => simp [hj character hc]

/-- The sweep over any list of indices keeps the core columns of the roster. -/
theorem sweep_fold_core (R : Rules) (i : Nat) (target : GridPoint) (l : List Nat)
    (cs : List Character) (hk : ∀ a, cs[i]? = some a → a.kind ≠ .SOLDIER) :
    (l.foldl (fun acc j => Character.dealDamage R acc i j target) cs).map Character.core =
      cs.map Character.core := by
  induction l generalizing cs with
  | nil => rfl
  | cons j l ih =>
    simp only [List.foldl_cons]
    have h1 := character_dealDamage_core R cs i j target hk
    rw [ih _ (kind_of_core_eq cs _ h1 i hk), h1]

theorem sweep_core (R : Rules) (cs : List Character) (i : Nat) (target : GridPoint)
    (hk : ∀ a, cs[i]? = some a → a.kind ≠ .SOLDIER) :
    (Game.sweep R cs i target).map Character.core = cs.map Character.core :=
  sweep_fold_core R i target _ cs hk

/-- A sweep over indices none of which stands on the target changes nothing. -/
theorem sweep_fold_off_target (R : Rules) (i : Nat) (target : GridPoint) (l : List Nat)
    (cs : List Character) (hk : ∀ a, cs[i]? = some a → a.kind ≠ .SOLDIER)
    (hl : ∀ j ∈ l, ∀ c, cs[j]? = some c → c.position ≠ target) :
    l.foldl (fun acc j => Character.dealDamage R acc i j target) cs = cs := by
  induction l with
  | nil => rfl
  | cons j l ih =>
    simp only [List.foldl_cons]
    rw [character_dealDamage_off_target R cs i j target hk (hl j (by simp))]
    exact ih (fun j' hj' => hl j' (by simp [hj']))

/-- When a single roster index `k` stands on the target, the sweep is the one
`dealDamage` call on that entry. -/
theorem sweep_fold_single (R : Rules) (i k : Nat) (target : GridPoint) (l : List Nat)
    (cs : List Character) (hk : ∀ a, cs[i]? = some a → a.kind ≠ .SOLDIER)
    (hnd : l.Nodup) (hmem : k ∈ l)
    (hoff : ∀ j, j ≠ k → ∀ c, cs[j]? = some c → c.position ≠ target) :
    l.foldl (fun acc j => Character.dealDamage R acc i j target) cs =
      Character.dealDamage R cs i k target := by
  induction l with
  | nil => simp at hmem
  | cons j l ih =>
    simp only [List.foldl_cons]
    rw [List.nodup_cons] at hnd
    by_cases hjk : j = k
    · subst hjk
      have hcore := character_dealDamage_core R cs i j target hk
      apply sweep_fold_off_target R i target l _ (kind_of_core_eq cs _ hcore i hk)
      intro j' hj' c' hc'
      obtain ⟨c, hc, hpos⟩ := position_of_core_eq cs _ hcore j' c' hc'
      rw [← hpos]
      exact hoff j' (fun h => hnd.1 (h ▸ hj')) c hc
    · rw [character_dealDamage_off_target R cs i j target hk (hoff j hjk)]
      have hmem' : k ∈ l := by
        rcases List.mem_cons.mp hmem with h | h
        · exact absurd h.symm hjk
        · exact h
      exact ih hnd.2 hmem'

theorem sweep_single (R : Rules) (cs : List Character) (i k : Nat) (target : GridPoint)
    (hk : ∀ a, cs[i]? = some a → a.kind ≠ .SOLDIER) (hlt : k < cs.length)
    (hoff : ∀ j, j ≠ k → ∀ c, cs[j]? = some c → c.position ≠ target) :
    Game.sweep R cs i target = Character.dealDamage R cs i k target :=
  sweep_fold_single R i k target _ cs hk (List.nodup_range _) (List.mem_range.mpr hlt) hoff

theorem map_set_congr {β : Type} (π : Character → β) (cs : List Character) (i : Nat)
    (x y : Character) (h : π x = π y) : (cs.set i x).map π = (cs.set i y).map π := by
  rw [List.map_set, List.map_set, h]

theorem map_set_same {β : Type} (π : Character → β) (cs : List Character) (i : Nat)
    (a b : Character) (ha : cs[i]? = some a) (h : π b = π a) :
    (cs.set i b).map π = cs.map π := by
  rw [map_set_congr π cs i b a h]
  have : cs.set i a = cs := by
    rw [← modifyAt_eq_set cs i (fun _ => a) a ha]
    exact modifyAt_id _ _ _ (fun c hc => by rw [ha] at hc; exact Option.some.inj hc)
  rw [this]

/-! ## `Game::attack`: success -/

/-- A successful `attack` of a Medic or a Sniper had a unit on the target
square, and costs one ammo unless it is a Medic addressing an ally. -/
theorem character_attack_success (R : Rules) (a : Character) (dst : GridPoint)
    (occ : Option Character) (hk : a.kind ≠ .SOLDIER) (h : (a.attack R dst occ).2 = none) :
    ∃ t, occ = some t ∧
      (a.attack R dst occ).1 =
        { a with ammo := a.ammo - (if a.kind = .MEDIC ∧ t.team = a.team then 0 else 1) } ∧
      (a.kind = .SNIPER → t.team ≠ a.team) := by
  unfold Character.attack at h ⊢
  cases hkind : a.kind
  · exact absurd hkind hk
  · simp only [hkind] at h ⊢
    unfold Medic.attack at h ⊢
    cases hv : Medic.validateTargetInRange R a dst with
    | some e => simp [hv] at h
    | none =>
      simp only [hv] at h ⊢
      cases occ with
      | none =>
        by_cases ha : a.ammo ≤ 0 <;> simp [ha] at h
      | some t =>
        refine ⟨t, rfl, ?_, fun hc => by cases hc⟩
        simp only at h ⊢
        by_cases ht : t.team ≠ a.team
        · rw [if_pos ht] at h ⊢
          unfold Character.decreaseAmmo at h ⊢
          by_cases ha : a.ammo ≤ 0
          · simp [ha] at h
          · have ht' : ¬ (t.team = a.team) := ht
            simp [ha, ht', hkind]
        · rw [if_neg ht] at h ⊢
          have ht' : t.team = a.team := not_not.mp ht
          by_cases hp : t.position = a.position
          · simp [hp] at h
          · rw [if_neg hp]
            cases a
            simp_all
  · simp only [hkind] at h ⊢
    unfold Sniper.attack at h ⊢
    cases occ with
    | none => simp at h
    | some t =>
      simp only at h ⊢
      cases hv : Sniper.validateTargetInRange R a dst with
      | some e => simp [hv] at h
      | none =>
        simp only [hv] at h ⊢
        by_cases hbad : ¬ (t.position = dst) ∨ t.team = a.team
        · rw [if_pos hbad] at h
          cases h
        · rw [if_neg hbad] at h ⊢
          have ht : ¬ (t.team = a.team) := fun hh => hbad (Or.inr hh)
          refine ⟨t, rfl, ?_, fun _ => ht⟩
          unfold Character.decreaseAmmo at h ⊢
          by_cases ha : a.ammo ≤ 0
          · simp [ha] at h
          · simp [ha, hkind]

/-- What a successful `Game::attack` computes: the acting unit after its own
`attack`, the swept roster, and the removal of the dead. -/
theorem attack_success_shape (R : Rules) (g g' : Game) (src dst : GridPoint) (i : Nat)
    (a : Character) (hl : Board.getCharacterInPoint src g.characters = some (i, a))
    (hk : a.kind ≠ .SOLDIER) (h : Game.attack R g src dst = ⟨g', none⟩) :
    ∃ t, Board.getCharacterIfExists dst g.characters = some t ∧
      (a.kind = .SNIPER → t.team ≠ a.team) ∧
      (a.attack R dst (some t)).2 = none ∧
      g' = { g with characters :=
        (Game.sweep R (g.characters.set i
            { a with ammo := a.ammo - (if a.kind = .MEDIC ∧ t.team = a.team then 0 else 1) })
          i dst).filter (fun c => !Game.isDead c) } := by
  unfold Game.attack at h
  cases hs : g.board.ensurePointOnBoard src with
  | some e => simp [hs] at h
  | none =>
    cases hd : g.board.ensurePointOnBoard dst with
    | some e => simp [hs, hd] at h
    | none =>
      simp only [hs, hd, hl] at h
      cases hr : (a.attack R dst (Board.getCharacterIfExists dst g.characters)).2 with
      | some e => simp [hr] at h
      | none =>
        obtain ⟨t, hocc, hres, hteam⟩ := character_attack_success R a dst _ hk hr
        refine ⟨t, hocc, hteam, by rw [← hocc]; exact hr, ?_⟩
        simp only [hr, Outcome.mk.injEq, and_true] at h
        rw [← h, hres, modifyAt_eq_set _ _ _ a (getCharacterInPoint_some _ _ _ _ hl).1]

/-- With pairwise distinct positions, no other roster entry stands where the
entry at `k` stands. -/
theorem unique_at_position (cs : List Character)
    (hnd : (cs.map (fun c => c.position)).Nodup) (k : Nat) (t : Character)
    (hk : cs[k]? = some t) :
    ∀ j, j ≠ k → ∀ c, cs[j]? = some c → c.position ≠ t.position := by
  intro j hjk c hc heq
  have hlt : j < (cs.map (fun c => c.position)).length := by
    rcases List.getElem?_eq_some.mp hc with ⟨h, _⟩
    simpa using h
  have hsame : (cs.map (fun c => c.position))[j]? = (cs.map (fun c => c.position))[k]? := by
    simp [List.getElem?_map, hc, hk, heq]
  exact hjk (List.getElem?_inj hlt hnd hsame)

/-- The one `dealDamage` call of a Sniper on the unit standing on the target. -/
theorem sniper_dealDamage_hit (R : Rules) (cs : List Character) (i k : Nat)
    (a t : Character) (dst : GridPoint) (hi : cs[i]? = some a) (hk : cs[k]? = some t)
    (ht : t.position = dst) :
    Sniper.dealDamage R cs i k dst =
      modifyAt
        (modifyAt cs k (fun c => c.decreaseHitPoints
          (if a.shot_counter = R.sniper.COMBO_FOR_BONUS - 1 then a.power * R.sniper.IMPACT_FACTOR
           else a.power)))
        i (fun s => { s with shot_counter :=
          if a.shot_counter = R.sniper.COMBO_FOR_BONUS - 1 then 0 else s.shot_counter + 1 }) := by
  unfold Sniper.dealDamage
  simp only [hi, hk, ht, not_true_eq_false, if_false]
  by_cases hc : a.shot_counter = R.sniper.COMBO_FOR_BONUS - 1
  · simp only [hc, if_true]
  · simp only [hc, if_false]

/-- The sweep of a Sniper's attack on a roster with pairwise distinct positions:
one health write on the target entry `k`, one counter write on the Sniper's
entry `i`. -/
theorem sniper_sweep_result (R : Rules) (cs : List Character) (i k : Nat)
    (a t : Character) (dst : GridPoint) (hi : cs[i]? = some a) (hk : cs[k]? = some t)
    (hs : a.kind = .SNIPER) (ht : t.position = dst)
    (hnd : (cs.map (fun c => c.position)).Nodup) :
    Game.sweep R cs i dst =
      modifyAt
        (modifyAt cs k (fun c => c.decreaseHitPoints
          (if a.shot_counter = R.sniper.COMBO_FOR_BONUS - 1 then a.power * R.sniper.IMPACT_FACTOR
           else a.power)))
        i (fun s => { s with shot_counter :=
          if a.shot_counter = R.sniper.COMBO_FOR_BONUS - 1 then 0 else s.shot_counter + 1 }) := by
  have hkind : ∀ b, cs[i]? = some b → b.kind ≠ .SOLDIER := by
    intro b hb
    rw [hi] at hb
    cases hb
    rw [hs]
    decide
  have hlt : k < cs.length := by
    rcases List.getElem?_eq_some.mp hk with ⟨h, _⟩
    exact h
  rw [sweep_single R cs i k dst hkind hlt
    (fun j hj c hc => ht ▸ unique_at_position cs hnd k t hk j hj c hc)]
  unfold Character.dealDamage
  simp only [hi, hs]
  exact sniper_dealDamage_hit R cs i k a t dst hi hk ht

theorem modifyAt_const_self (cs : List Character) (i : Nat) (a : Character)
    (h : cs[i]? = some a) : modifyAt cs i (fun _ => a) = cs :=
  modifyAt_id _ _ _ (fun c hc => by rw [h] at hc; exact Option.some.inj hc)

theorem getCharacterIfExists_none (p : GridPoint) (cs : List Character)
    (h : ∀ c ∈ cs, c.position ≠ p) : Board.getCharacterIfExists p cs = none := by
  unfold Board.getCharacterIfExists
  rw [(getCharacterInPoint_none p cs).mpr h]
  rfl

/-- C16: a Sniper at an on-board `src` attacking an on-board `dst` on which no
unit stands gets `CellEmpty`, whatever the distance between the two points and
whatever its ammo; the game is left unchanged. -/
theorem sniper_attack_empty_cell (R : Rules) (g : Game) (src dst : GridPoint) (i : Nat)
    (a : Character) (hsrc : g.board.ensurePointOnBoard src = none)
    (hdst : g.board.ensurePointOnBoard dst = none)
    (hl : Board.getCharacterInPoint src g.characters = some (i, a))
    (hk : a.kind = .SNIPER) (hempty : ∀ c ∈ g.characters, c.position ≠ dst) :
    Game.attack R g src dst = ⟨g, some .CellEmpty⟩ := by
  have hn := getCharacterIfExists_none dst g.characters hempty
  have hi := (getCharacterInPoint_some _ _ _ _ hl).1
  simp [Game.attack, hsrc, hdst, hl, hn, Character.attack, hk, Sniper.attack,
    modifyAt_const_self _ _ _ hi]

/-- C17: a Medic attacking an empty on-board square whose distance from it lies
between 1 and its range always fails, with `OutOfAmmo` when its ammo is `≤ 0`
and with `IllegalTarget` otherwise; the Medic (its ammo included) and the whole
game are left unchanged. -/
theorem medic_attack_empty_cell (R : Rules) (g : Game) (src dst : GridPoint) (i : Nat)
    (a : Character) (hsrc : g.board.ensurePointOnBoard src = none)
    (hdst : g.board.ensurePointOnBoard dst = none)
    (hl : Board.getCharacterInPoint src g.characters = some (i, a))
    (hk : a.kind = .MEDIC) (hempty : ∀ c ∈ g.characters, c.position ≠ dst)
    (hmin : 1 ≤ R.distance src dst) (hmax : R.distance src dst ≤ a.range) :
    Medic.attack R a dst none =
      (a, some (if a.ammo ≤ 0 then .OutOfAmmo else .IllegalTarget)) ∧
    Game.attack R g src dst =
      ⟨g, some (if a.ammo ≤ 0 then .OutOfAmmo else .IllegalTarget)⟩ := by
  have hn := getCharacterIfExists_none dst g.characters hempty
  obtain ⟨hi, hpos⟩ := getCharacterInPoint_some _ _ _ _ hl
  have hv : Medic.validateTargetInRange R a dst = none := by
    unfold Medic.validateTargetInRange
    rw [hpos]
    have h0 : ¬ R.distance src dst = 0 := by omega
    have h1 : ¬ R.distance src dst > a.range := by omega
    simp [h0, h1]
  have hm : Medic.attack R a dst none =
      (a, some (if a.ammo ≤ 0 then .OutOfAmmo else .IllegalTarget)) := by
    unfold Medic.attack
    by_cases ha : a.ammo ≤ 0 <;> simp [hv, ha]
  refine ⟨hm, ?_⟩
  simp [Game.attack, hsrc, hdst, hl, hn, Character.attack, hk, hm,
    modifyAt_const_self _ _ _ hi]

/-- C15: attacking one's own square is illegal. With a Medic or a Sniper at the
on-board point `s`, `Game::attack(s, s)` fails and leaves the game unchanged,
whatever the range and the ammo: a Medic gets `IllegalTarget` (the distance from
a point to itself being 0), a Sniper gets `OutOfRange` or `IllegalTarget`. -/
theorem attack_own_square (R : Rules) (g : Game) (s : GridPoint) (i : Nat) (a : Character)
    (hon : g.board.ensurePointOnBoard s = none)
    (hl : Board.getCharacterInPoint s g.characters = some (i, a)) :
    (a.kind = .MEDIC → R.distance s s = 0 →
      Game.attack R g s s = ⟨g, some .IllegalTarget⟩) ∧
    (a.kind = .SNIPER →
      Game.attack R g s s = ⟨g, some .OutOfRange⟩ ∨
      Game.attack R g s s = ⟨g, some .IllegalTarget⟩) := by
  obtain ⟨hi, hpos⟩ := getCharacterInPoint_some _ _ _ _ hl
  have hocc : Board.getCharacterIfExists s g.characters = some a := by
    unfold Board.getCharacterIfExists
    rw [hl]
    rfl
  refine ⟨fun hk hd => ?_, fun hk => ?_⟩
  · have hv : Medic.validateTargetInRange R a s = some .IllegalTarget := by
      unfold Medic.validateTargetInRange
      rw [hpos]
      simp [hd]
    simp [Game.attack, hon, hl, hocc, Character.attack, hk, Medic.attack, hv,
      modifyAt_const_self _ _ _ hi]
  · cases hv : Sniper.validateTargetInRange R a s with
    | some e =>
      have he : e = .OutOfRange := by
        unfold Sniper.validateTargetInRange at hv
        simp only at hv
        split at hv
        · exact (Option.some.inj hv).symm
        · cases hv
      subst he
      left
      simp [Game.attack, hon, hl, hocc, Character.attack, hk, Sniper.attack, hv,
        modifyAt_const_self _ _ _ hi]
    | none =>
      right
      simp [Game.attack, hon, hl, hocc, Character.attack, hk, Sniper.attack, hv,
        modifyAt_const_self _ _ _ hi]

/-- Witness for C16: the Sniper of `sampleGame` attacks the empty square (3,3),
which is outside its range band. -/
theorem sniper_attack_empty_cell_witness :
    Game.attack sampleRules sampleGame ⟨0, 2⟩ ⟨3, 3⟩ = ⟨sampleGame, some .CellEmpty⟩ :=
  sniper_attack_empty_cell sampleRules sampleGame ⟨0, 2⟩ ⟨3, 3⟩ 1 sampleSniper
    (by decide) (by decide) (by decide) (by decide) (by decide)

/-- Witness for C17: the Medic of `sampleGame` attacks the empty square (0,1). -/
theorem medic_attack_empty_cell_witness :
    Medic.attack sampleRules sampleMedic ⟨0, 1⟩ none =
      (sampleMedic, some (if sampleMedic.ammo ≤ 0 then .OutOfAmmo else .IllegalTarget)) ∧
    Game.attack sampleRules sampleGame ⟨0, 0⟩ ⟨0, 1⟩ =
      ⟨sampleGame, some (if sampleMedic.ammo ≤ 0 then .OutOfAmmo else .IllegalTarget)⟩ :=
  medic_attack_empty_cell sampleRules sampleGame ⟨0, 0⟩ ⟨0, 1⟩ 0 sampleMedic
    (by decide) (by decide) (by decide) (by decide) (by decide) (by decide) (by decide)

/-- Witness for C15: the Medic of `sampleGame` attacks its own square (0,0). -/
theorem attack_own_square_witness :
    (sampleMedic.kind = .MEDIC → sampleRules.distance ⟨0, 0⟩ ⟨0, 0⟩ = 0 →
      Game.attack sampleRules sampleGame ⟨0, 0⟩ ⟨0, 0⟩ =
        ⟨sampleGame, some .IllegalTarget⟩) ∧
    (sampleMedic.kind = .SNIPER →
      Game.attack sampleRules sampleGame ⟨0, 0⟩ ⟨0, 0⟩ = ⟨sampleGame, some .OutOfRange⟩ ∨
      Game.attack sampleRules sampleGame ⟨0, 0⟩ ⟨0, 0⟩ =
        ⟨sampleGame, some .IllegalTarget⟩) :=
  attack_own_square sampleRules sampleGame ⟨0, 0⟩ 0 sampleMedic (by decide) (by decide)

/-! ## The roster after a successful attack -/

theorem outcome_eta (o : Outcome) (h : o.thrown = none) : o = ⟨o.game, none⟩ := by
  cases o with
  | mk g th =>
    simp only at h
    rw [h]

theorem not_isDead_eq (c : Character) : (!Game.isDead c) = decide (0 < c.health) := by
  unfold Game.isDead
  by_cases h : c.health ≤ 0
  · have h2 : ¬ 0 < c.health := by omega
    simp [h, h2]
  · have h2 : 0 < c.health := by omega
    simp [h, h2]

/-- A successful `Game::attack` leaves the swept roster without its dead. -/
theorem attack_success_filter (R : Rules) (g : Game) (src dst : GridPoint)
    (h : (Game.attack R g src dst).thrown = none) :
    (Game.attack R g src dst).game.characters =
      (AttackAction.swept R ⟨g, src, dst⟩).filter (fun c => !Game.isDead c) := by
  unfold Game.attack at h ⊢
  unfold AttackAction.swept
  cases hs : g.board.ensurePointOnBoard src with
  | some e => simp [hs] at h
  | none =>
    cases hd : g.board.ensurePointOnBoard dst with
    | some e => simp [hs, hd] at h
    | none =>
      cases hl : Board.getCharacterInPoint src g.characters with
      | none => simp [hs, hd, hl] at h
      | some r =>
        obtain ⟨i, a⟩ := r
        simp only [hs, hd, hl] at h ⊢
        cases hr : (a.attack R dst (Board.getCharacterIfExists dst g.characters)).2 with
        | some e => simp [hr] at h
        | none => simp only [hr]

/-- The swept roster of a successful attack by a Medic or a Sniper: the sweep of
the roster in which the acting unit has paid its ammo. -/
theorem swept_of_success (R : Rules) (g : Game) (src dst : GridPoint) (i : Nat)
    (a : Character) (hl : Board.getCharacterInPoint src g.characters = some (i, a))
    (hk : a.kind ≠ .SOLDIER) (h : (Game.attack R g src dst).thrown = none) :
    ∃ t, Board.getCharacterIfExists dst g.characters = some t ∧
      (a.kind = .SNIPER → t.team ≠ a.team) ∧
      (a.attack R dst (some t)).2 = none ∧
      AttackAction.swept R ⟨g, src, dst⟩ =
        Game.sweep R (g.characters.set i
          { a with ammo := a.ammo - (if a.kind = .MEDIC ∧ t.team = a.team then 0 else 1) })
          i dst := by
  obtain ⟨t, hocc, hteam, hatk, _⟩ :=
    attack_success_shape R g _ src dst i a hl hk (outcome_eta _ h)
  refine ⟨t, hocc, hteam, hatk, ?_⟩
  obtain ⟨t2, ht2, hres, _⟩ := character_attack_success R a dst (some t) hk hatk
  cases ht2
  unfold AttackAction.swept
  simp only [hl, hocc, hres]
  rw [modifyAt_eq_set _ _ _ a (getCharacterInPoint_some _ _ _ _ hl).1]

/-- The swept roster has the core columns of the roster before the call, except
for the ammo the acting unit has paid. -/
theorem swept_core (R : Rules) (g : Game) (src dst : GridPoint) (i : Nat)
    (a : Character) (hl : Board.getCharacterInPoint src g.characters = some (i, a))
    (hk : a.kind ≠ .SOLDIER) (h : (Game.attack R g src dst).thrown = none) :
    ∃ a', a'.kind = a.kind ∧ a'.position = a.position ∧ a'.range = a.range ∧
      a'.power = a.power ∧ a'.team = a.team ∧ a'.health = a.health ∧
      a'.shot_counter = a.shot_counter ∧
      AttackAction.swept R ⟨g, src, dst⟩ = Game.sweep R (g.characters.set i a') i dst ∧
      (AttackAction.swept R ⟨g, src, dst⟩).map Character.core =
        (g.characters.set i a').map Character.core := by
  obtain ⟨t, _, _, _, hsw⟩ := swept_of_success R g src dst i a hl hk h
  have hi := (getCharacterInPoint_some _ _ _ _ hl).1
  have hlt : i < g.characters.length := by
    rcases List.getElem?_eq_some.mp hi with ⟨hlt, _⟩
    exact hlt
  refine ⟨{ a with ammo := a.ammo - (if a.kind = .MEDIC ∧ t.team = a.team then 0 else 1) },
    rfl, rfl, rfl, rfl, rfl, rfl, rfl, hsw, ?_⟩
  rw [hsw]
  apply sweep_core
  intro b hb
  rw [List.getElem?_set_self hlt] at hb
  cases hb
  exact hk

/-- C13: after a successful `Game::attack` the roster is exactly the roster as the
damage sweep left it, restricted to the units whose health is `> 0`, in the same
order: no unit with health `≤ 0` remains and no unit with health `> 0` is
removed. For a Medic or a Sniper as acting unit the swept roster has the units
of the roster before the call, entry by entry at the same positions. -/
theorem attack_removes_exactly_dead (R : Rules) (g : Game) (src dst : GridPoint)
    (h : (Game.attack R g src dst).thrown = none) :
    (Game.attack R g src dst).game.characters =
      (AttackAction.swept R ⟨g, src, dst⟩).filter (fun c => decide (0 < c.health)) ∧
    (Game.attack R g src dst).game.characters.Sublist (AttackAction.swept R ⟨g, src, dst⟩) ∧
    (∀ c ∈ (Game.attack R g src dst).game.characters, 0 < c.health) ∧
    (∀ c ∈ AttackAction.swept R ⟨g, src, dst⟩, 0 < c.health →
      c ∈ (Game.attack R g src dst).game.characters) ∧
    (∀ i a, Board.getCharacterInPoint src g.characters = some (i, a) → a.kind ≠ .SOLDIER →
      (AttackAction.swept R ⟨g, src, dst⟩).map (fun c => c.position) =
        g.characters.map (fun c => c.position)) := by
  have hf : (Game.attack R g src dst).game.characters =
      (AttackAction.swept R ⟨g, src, dst⟩).filter (fun c => decide (0 < c.health)) := by
    rw [attack_success_filter R g src dst h]
    exact List.filter_congr (fun c _ => not_isDead_eq c)
  refine ⟨hf, ?_, ?_, ?_, ?_⟩
  · rw [hf]
    exact List.filter_sublist _
  · intro c hc
    rw [hf, List.mem_filter] at hc
    exact of_decide_eq_true hc.2
  · intro c hc hpos
    rw [hf, List.mem_filter]
    exact ⟨hc, decide_eq_true hpos⟩
  · intro i a hl hk
    obtain ⟨a', _, hpa, _, _, _, _, _, _, hcore⟩ := swept_core R g src dst i a hl hk h
    have h2 := congrArg (List.map (fun x => x.2.2.2.2.2)) hcore
    rw [List.map_map, List.map_map] at h2
    exact h2.trans (map_set_same _ _ _ a a' (getCharacterInPoint_some _ _ _ _ hl).1 hpa)

/-- Witness for C13: the third shot of `sampleShots` kills the Medic, which is
then missing from the roster. -/
theorem attack_removes_exactly_dead_witness :
    (Game.attack sampleRules sampleShot3.game ⟨0, 2⟩ ⟨0, 0⟩).game.characters =
      (AttackAction.swept sampleRules ⟨sampleShot3.game, ⟨0, 2⟩, ⟨0, 0⟩⟩).filter
        (fun c => decide (0 < c.health)) ∧
    (Game.attack sampleRules sampleShot3.game ⟨0, 2⟩ ⟨0, 0⟩).game.characters.Sublist
      (AttackAction.swept sampleRules ⟨sampleShot3.game, ⟨0, 2⟩, ⟨0, 0⟩⟩) ∧
    (∀ c ∈ (Game.attack sampleRules sampleShot3.game ⟨0, 2⟩ ⟨0, 0⟩).game.characters,
      0 < c.health) ∧
    (∀ c ∈ AttackAction.swept sampleRules ⟨sampleShot3.game, ⟨0, 2⟩, ⟨0, 0⟩⟩, 0 < c.health →
      c ∈ (Game.attack sampleRules sampleShot3.game ⟨0, 2⟩ ⟨0, 0⟩).game.characters) ∧
    (∀ i a, Board.getCharacterInPoint ⟨0, 2⟩ sampleShot3.game.characters = some (i, a) →
      a.kind ≠ .SOLDIER →
      (AttackAction.swept sampleRules ⟨sampleShot3.game, ⟨0, 2⟩, ⟨0, 0⟩⟩).map
          (fun c => c.position) =
        sampleShot3.game.characters.map (fun c => c.position)) :=
  attack_removes_exactly_dead sampleRules sampleShot3.game ⟨0, 2⟩ ⟨0, 0⟩ (by decide)

/-! ## Frame of the damage sweep -/

theorem modifyAt_map_at {β : Type} (π : Character → β) (cs : List Character) (k : Nat)
    (f : Character → Character) (h : ∀ c, cs[k]? = some c → π (f c) = π c) :
    (modifyAt cs k f).map π = cs.map π := by
  induction cs generalizing k with
  | nil => rfl
  | cons c cs ih =>
    cases k with
    | zero =>
      have := h c (by simp)
      simp [modifyAt, this]
    | succ k =>
      have := ih k (fun x hx => h x (by simpa using hx))
      simp [modifyAt, this]

theorem frame_of_health_on_target (target : GridPoint) (c : Character) (v : Int)
    (h : c.position = target) :
    Character.frame target { c with health := v } = Character.frame target c := by
  simp [Character.frame, h]

theorem medic_dealDamage_frame (cs : List Character) (i j : Nat) (target : GridPoint) :
    (Medic.dealDamage cs i j target).map (Character.frame target) =
      cs.map (Character.frame target) := by
  unfold Medic.dealDamage
  cases hi : cs[i]? with
  | none => simp
  | some self =>
    cases hj : cs[j]? with
    | none => simp
    | some character =>
      simp only
      by_cases hp : ¬ (character.position = target)
      · rw [if_pos hp]
      · rw [if_neg hp]
        have hpos : character.position = target := not_not.mp hp
        have hfr : ∀ (f : Character → Character),
            (∀ c, ∃ v, f c = { c with health := v }) →
            (modifyAt cs j f).map (Character.frame target) =
              cs.map (Character.frame target) := by
          intro f hf
          apply modifyAt_map_at
          intro c hc
          rw [hj] at hc
          cases hc
          obtain ⟨v, hv⟩ := hf character
          rw [hv]
          exact frame_of_health_on_target target character v hpos
        by_cases ht : character.team = self.team
        · rw [if_pos ht]
          exact hfr _ (fun c => ⟨_, rfl⟩)
        · rw [if_neg ht]
          exact hfr _ (fun c => ⟨_, rfl⟩)

theorem sniper_dealDamage_frame (R : Rules) (cs : List Character) (i j : Nat)
    (target : GridPoint) :
    (Sniper.dealDamage R cs i j target).map (Character.frame target) =
      cs.map (Character.frame target) := by
  unfold Sniper.dealDamage
  cases hi : cs[i]? with
  | none => simp
  | some self =>
    cases hj : cs[j]? with
    | none => simp
    | some character =>
      simp only
      by_cases hp : ¬ (character.position = target)
      · rw [if_pos hp]
      · rw [if_neg hp]
        have hpos : character.position = target := not_not.mp hp
        have hfr : ∀ (d : Int) (g : Character → Character),
            (∀ c, Character.frame target (g c) = Character.frame target c) →
            (modifyAt (modifyAt cs j (fun c => c.decreaseHitPoints d)) i g).map
                (Character.frame target) =
              cs.map (Character.frame target) := by
          intro d g hg
          rw [modifyAt_map (Character.frame target) _ i g hg]
          apply modifyAt_map_at
          intro c hc
          rw [hj] at hc
          cases hc
          exact frame_of_health_on_target target character _ hpos
        by_cases hc : self.shot_counter = R.sniper.COMBO_FOR_BONUS - 1
        · rw [if_pos hc]
          exact hfr _ _ (fun c => rfl)
        · rw [if_neg hc]
          exact hfr _ _ (fun c => rfl)

theorem character_dealDamage_frame (R : Rules) (cs : List Character) (i j : Nat)
    (target : GridPoint) (hk : ∀ a, cs[i]? = some a → a.kind ≠ .SOLDIER) :
    (Character.dealDamage R cs i j target).map (Character.frame target) =
      cs.map (Character.frame target) := by
  unfold Character.dealDamage
  cases hi : cs[i]? with
  | none => simp
  | some self =>
    simp only
    cases hkind : self.kind
    · exact absurd hkind (hk self hi)
    · exact medic_dealDamage_frame cs i j target
    · exact sniper_dealDamage_frame R cs i j target

theorem sweep_fold_frame (R : Rules) (i : Nat) (target : GridPoint) (l : List Nat)
    (cs : List Character) (hk : ∀ a, cs[i]? = some a → a.kind ≠ .SOLDIER) :
    (l.foldl (fun acc j => Character.dealDamage R acc i j target) cs).map
        (Character.frame target) =
      cs.map (Character.frame target) := by
  induction l generalizing cs with
  | nil => rfl
  | cons j l ih =>
    simp only [List.foldl_cons]
    have h1 := character_dealDamage_core R cs i j target hk
    rw [ih _ (kind_of_core_eq cs _ h1 i hk), character_dealDamage_frame R cs i j target hk]

theorem sweep_frame (R : Rules) (cs : List Character) (i : Nat) (target : GridPoint)
    (hk : ∀ a, cs[i]? = some a → a.kind ≠ .SOLDIER) :
    (Game.sweep R cs i target).map (Character.frame target) =
      cs.map (Character.frame target) :=
  sweep_fold_frame R i target _ cs hk

/-- The swept roster of a successful attack by a Medic or a Sniper has the frame
of the roster before the call. -/
theorem swept_frame (R : Rules) (g : Game) (src dst : GridPoint) (i : Nat)
    (a : Character) (hl : Board.getCharacterInPoint src g.characters = some (i, a))
    (hk : a.kind ≠ .SOLDIER) (h : (Game.attack R g src dst).thrown = none) :
    (AttackAction.swept R ⟨g, src, dst⟩).map (Character.frame dst) =
      g.characters.map (Character.frame dst) := by
  obtain ⟨a', hka, hpa, hra, hpw, hta, hha, _, hsw, _⟩ := swept_core R g src dst i a hl hk h
  have hi := (getCharacterInPoint_some _ _ _ _ hl).1
  have hlt : i < g.characters.length := by
    rcases List.getElem?_eq_some.mp hi with ⟨hlt, _⟩
    exact hlt
  rw [hsw, sweep_frame R _ i dst (by
    intro b hb
    rw [List.getElem?_set_self hlt] at hb
    cases hb
    rw [hka]
    exact hk)]
  apply map_set_same _ _ _ a a' hi
  simp [Character.frame, hpa, hra, hpw, hta, hha]

/-- C19: frame of the damage sweep. After a successful `Game::attack(src, dst)`
by a Medic or a Sniper, the swept roster agrees entry by entry with the roster
before the call on position, range, power and team, and on health for every
unit that does not stand on `dst`; the surviving units are entries of the swept
roster. Moreover a `dealDamage` call of a Medic or Sniper on a roster entry that
does not stand on `dst` leaves the whole roster as it is, the unit and the
Sniper's combo counter included. -/
theorem attack_frame (R : Rules) (g : Game) (src dst : GridPoint) (i : Nat)
    (a : Character) (hl : Board.getCharacterInPoint src g.characters = some (i, a))
    (hk : a.kind ≠ .SOLDIER) (h : (Game.attack R g src dst).thrown = none) :
    (AttackAction.swept R ⟨g, src, dst⟩).map (Character.frame dst) =
      g.characters.map (Character.frame dst) ∧
    (Game.attack R g src dst).game.characters.Sublist (AttackAction.swept R ⟨g, src, dst⟩) ∧
    (∀ (cs : List Character) (k j : Nat), (∀ b, cs[k]? = some b → b.kind ≠ .SOLDIER) →
      (∀ c, cs[j]? = some c → c.position ≠ dst) →
      Character.dealDamage R cs k j dst = cs) := by
  refine ⟨swept_frame R g src dst i a hl hk h, ?_, ?_⟩
  · rw [attack_success_filter R g src dst h]
    exact List.filter_sublist _
  · intro cs k j hkind hoff
    exact character_dealDamage_off_target R cs k j dst hkind hoff

/-- Witness for C19: the Medic of `sampleGame` attacks the Sniper at (0,2). -/
theorem attack_frame_witness :
    (AttackAction.swept sampleRules ⟨sampleGame, ⟨0, 0⟩, ⟨0, 2⟩⟩).map
        (Character.frame ⟨0, 2⟩) =
      sampleGame.characters.map (Character.frame ⟨0, 2⟩) ∧
    (Game.attack sampleRules sampleGame ⟨0, 0⟩ ⟨0, 2⟩).game.characters.Sublist
      (AttackAction.swept sampleRules ⟨sampleGame, ⟨0, 0⟩, ⟨0, 2⟩⟩) ∧
    (∀ (cs : List Character) (k j : Nat), (∀ b, cs[k]? = some b → b.kind ≠ .SOLDIER) →
      (∀ c, cs[j]? = some c → c.position ≠ (⟨0, 2⟩ : GridPoint)) →
      Character.dealDamage sampleRules cs k j ⟨0, 2⟩ = cs) :=
  attack_frame sampleRules sampleGame ⟨0, 0⟩ ⟨0, 2⟩ 0 sampleMedic
    (by decide) (by decide) (by decide)

/-! ## The Medic's sweep -/

theorem medic_damaged_congr (s a : Character) (target : GridPoint)
    (ht : s.team = a.team) (hp : s.power = a.power) :
    Medic.damaged s target = Medic.damaged a target := by
  funext c
  unfold Medic.damaged
  rw [ht, hp]

/-- One `dealDamage` call of a Medic is an in-place update of the entry it is
called on. -/
theorem medic_dealDamage_eq_modifyAt (R : Rules) (cs : List Character) (i j : Nat)
    (s : Character) (target : GridPoint) (hi : cs[i]? = some s) (hk : s.kind = .MEDIC) :
    Character.dealDamage R cs i j target = modifyAt cs j (Medic.damaged s target) := by
  unfold Character.dealDamage
  simp only [hi, hk]
  unfold Medic.dealDamage
  simp only [hi]
  cases hj : cs[j]? with
  | none =>
    simp only
    exact (modifyAt_id _ _ _ (fun c hc => by rw [hj] at hc; cases hc)).symm
  | some character =>
    simp only
    by_cases hp : ¬ (character.position = target)
    · rw [if_pos hp]
      refine (modifyAt_id _ _ _ (fun c hc => ?_)).symm
      rw [hj] at hc
      cases hc
      unfold Medic.damaged
      rw [if_pos hp]
    · rw [if_neg hp]
      have hpos : character.position = target := not_not.mp hp
      have hset : ∀ f : Character → Character,
          f character = Medic.damaged s target character →
          modifyAt cs j f = modifyAt cs j (Medic.damaged s target) := by
        intro f hf
        rw [modifyAt_eq_set cs j f character hj,
          modifyAt_eq_set cs j (Medic.damaged s target) character hj, hf]
      by_cases ht : character.team = s.team
      · rw [if_pos ht]
        apply hset
        unfold Medic.damaged
        rw [if_neg hp, if_pos ht]
      · rw [if_neg ht]
        apply hset
        unfold Medic.damaged
        rw [if_neg hp, if_neg ht]

theorem medic_damaged_fields (a : Character) (target : GridPoint) (c : Character) :
    (Medic.damaged a target c).kind = c.kind ∧ (Medic.damaged a target c).team = c.team ∧
    (Medic.damaged a target c).power = c.power := by
  unfold Medic.damaged
  by_cases hp : ¬ (c.position = target)
  · rw [if_pos hp]
    exact ⟨rfl, rfl, rfl⟩
  · rw [if_neg hp]
    by_cases ht : c.team = a.team
    · rw [if_pos ht]
      exact ⟨rfl, rfl, rfl⟩
    · rw [if_neg ht]
      exact ⟨rfl, rfl, rfl⟩

/-- The loop of a Medic is a loop of in-place updates with one fixed function. -/
theorem medic_fold_eq (R : Rules) (i : Nat) (a : Character) (target : GridPoint)
    (l : List Nat) (cs : List Character)
    (hi : ∃ s, cs[i]? = some s ∧ s.kind = .MEDIC ∧ s.team = a.team ∧ s.power = a.power) :
    l.foldl (fun acc j => Character.dealDamage R acc i j target) cs =
      l.foldl (fun acc j => modifyAt acc j (Medic.damaged a target)) cs := by
  induction l generalizing cs with
  | nil => rfl
  | cons j l ih =>
    obtain ⟨s, hs, hk, ht, hp⟩ := hi
    simp only [List.foldl_cons]
    rw [medic_dealDamage_eq_modifyAt R cs i j s target hs hk,
      medic_damaged_congr s a target ht hp]
    apply ih
    rw [modifyAt_getElem_opt, hs]
    obtain ⟨h1, h2, h3⟩ := medic_damaged_fields a target s
    by_cases hij : i = j
    · rw [if_pos hij]
      exact ⟨_, rfl, h1.trans hk, h2.trans ht, h3.trans hp⟩
    · rw [if_neg hij]
      exact ⟨s, rfl, hk, ht, hp⟩

theorem fold_modifyAt_getElem_opt (f : Character → Character) (l : List Nat)
    (hnd : l.Nodup) (cs : List Character) (k : Nat) :
    (l.foldl (fun acc j => modifyAt acc j f) cs)[k]? =
      if k ∈ l then cs[k]?.map f else cs[k]? := by
  induction l generalizing cs with
  | nil => simp
  | cons j l ih =>
    rw [List.nodup_cons] at hnd
    simp only [List.foldl_cons]
    rw [ih hnd.2, modifyAt_getElem_opt]
    by_cases hkl : k ∈ l
    · have hkj : k ≠ j := fun h => hnd.1 (h ▸ hkl)
      simp [hkl, hkj]
    · by_cases hkj : k = j
      · rw [if_neg hkl, if_pos hkj, if_pos (hkj ▸ List.mem_cons_self j l)]
      · rw [if_neg hkl, if_neg hkj, if_neg (fun h => by
          rcases List.mem_cons.mp h with h | h
          · exact hkj h
          · exact hkl h)]

theorem fold_modifyAt_range (f : Character → Character) (cs : List Character) :
    (List.range cs.length).foldl (fun acc j => modifyAt acc j f) cs = cs.map f := by
  apply List.ext_getElem?
  intro k
  rw [fold_modifyAt_getElem_opt f _ (List.nodup_range _), List.getElem?_map]
  by_cases hk : k < cs.length
  · rw [if_pos (List.mem_range.mpr hk)]
  · rw [if_neg (fun h => hk (List.mem_range.mp h))]
    have : cs[k]? = none := List.getElem?_eq_none (by omega)
    rw [this]
    rfl

/-- The sweep of a Medic applies `Medic.damaged` once to every roster entry. -/
theorem medic_sweep_eq_map (R : Rules) (cs : List Character) (i : Nat) (a : Character)
    (target : GridPoint) (hi : cs[i]? = some a) (hk : a.kind = .MEDIC) :
    Game.sweep R cs i target = cs.map (Medic.damaged a target) := by
  unfold Game.sweep
  rw [medic_fold_eq R i a target _ cs ⟨a, hi, hk, rfl, rfl⟩]
  exact fold_modifyAt_range _ cs

/-- A Medic or a Sniper handed itself as the unit on the target square throws. -/
theorem character_attack_self_fails (R : Rules) (a : Character) (dst : GridPoint)
    (hk : a.kind ≠ .SOLDIER) : (a.attack R dst (some a)).2 ≠ none := by
  intro h
  obtain ⟨t, ht, _, hteam⟩ := character_attack_success R a dst (some a) hk h
  cases ht
  cases hkind : a.kind
  · exact hk hkind
  · unfold Character.attack at h
    simp only [hkind] at h
    unfold Medic.attack at h
    cases hv : Medic.validateTargetInRange R a dst with
    | some e => simp [hv] at h
    | none => simp [hv] at h
  · exact hteam hkind rfl

/-- A successful attack of a Medic or a Sniper is never aimed at its own square. -/
theorem attack_success_src_ne_dst (R : Rules) (g : Game) (src dst : GridPoint) (i : Nat)
    (a : Character) (hl : Board.getCharacterInPoint src g.characters = some (i, a))
    (hk : a.kind ≠ .SOLDIER) (h : (Game.attack R g src dst).thrown = none) : src ≠ dst := by
  intro heq
  subst heq
  obtain ⟨t, hocc, _, hatk, _⟩ := swept_of_success R g src src i a hl hk h
  have hta : t = a := by
    unfold Board.getCharacterIfExists at hocc
    rw [hl] at hocc
    exact (Option.some.inj hocc).symm
  subst hta
  exact character_attack_self_fails R t src hk hatk

/-- C11: after a successful `Game::attack(src, dst)` by a Medic with attack power
`p`, every unit of the roster that stood on `dst` (in particular the unit the
attack addressed) has in the swept roster its previous health plus `p` when it
is on the Medic's team and its previous health minus `p` when it is on the
opposing team, nothing else of it being changed; the roster after the call is
the swept roster without the units whose health is then `≤ 0`. -/
theorem medic_attack_health (R : Rules) (g : Game) (src dst : GridPoint) (i : Nat)
    (a : Character) (hl : Board.getCharacterInPoint src g.characters = some (i, a))
    (hk : a.kind = .MEDIC) (h : (Game.attack R g src dst).thrown = none) :
    (∀ (j : Nat) (c : Character), g.characters[j]? = some c → c.position = dst →
      (AttackAction.swept R ⟨g, src, dst⟩)[j]? =
        some { c with health :=
          if c.team = a.team then c.health + a.power else c.health - a.power }) ∧
    (Game.attack R g src dst).game.characters =
      (AttackAction.swept R ⟨g, src, dst⟩).filter (fun c => decide (0 < c.health)) := by
  have hks : a.kind ≠ .SOLDIER := by rw [hk]; decide
  obtain ⟨hi, hpos⟩ := getCharacterInPoint_some _ _ _ _ hl
  have hlt : i < g.characters.length := by
    rcases List.getElem?_eq_some.mp hi with ⟨hlt, _⟩
    exact hlt
  have hne := attack_success_src_ne_dst R g src dst i a hl hks h
  constructor
  · intro j c hj hc
    obtain ⟨a', hka, _, _, hpw, hta, _, _, hsw, _⟩ := swept_core R g src dst i a hl hks h
    have hij : i ≠ j := by
      intro hij
      subst hij
      rw [hi] at hj
      cases hj
      exact hne (hpos.symm.trans hc)
    rw [hsw, medic_sweep_eq_map R _ i a' dst (List.getElem?_set_self hlt) (hka.trans hk),
      List.getElem?_map, List.getElem?_set_ne hij, hj]
    simp only [Option.map_some', Option.some.injEq]
    unfold Medic.damaged
    rw [if_neg (not_not.mpr hc), hta, hpw]
    by_cases ht : c.team = a.team
    · rw [if_pos ht, if_pos ht]
      rfl
    · rw [if_neg ht, if_neg ht]
      rfl
  · rw [attack_success_filter R g src dst h]
    exact List.filter_congr (fun c _ => not_isDead_eq c)

/-- Witness for C11: the Medic of `sampleGame` attacks the enemy Sniper at (0,2). -/
theorem medic_attack_health_witness :
    (∀ (j : Nat) (c : Character), sampleGame.characters[j]? = some c →
      c.position = (⟨0, 2⟩ : GridPoint) →
      (AttackAction.swept sampleRules ⟨sampleGame, ⟨0, 0⟩, ⟨0, 2⟩⟩)[j]? =
        some { c with health :=
          if c.team = sampleMedic.team then c.health + sampleMedic.power
          else c.health - sampleMedic.power }) ∧
    (Game.attack sampleRules sampleGame ⟨0, 0⟩ ⟨0, 2⟩).game.characters =
      (AttackAction.swept sampleRules ⟨sampleGame, ⟨0, 0⟩, ⟨0, 2⟩⟩).filter
        (fun c => decide (0 < c.health)) :=
  medic_attack_health sampleRules sampleGame ⟨0, 0⟩ ⟨0, 2⟩ 0 sampleMedic
    (by decide) (by decide) (by decide)

/-! ## The attacker survives -/

/-- Entries of two rosters with the same frame columns, read at the same index. -/
theorem frame_at (target : GridPoint) (cs cs' : List Character)
    (h : cs'.map (Character.frame target) = cs.map (Character.frame target)) (j : Nat)
    (c : Character) (hc : cs[j]? = some c) :
    ∃ c', cs'[j]? = some c' ∧ Character.frame target c' = Character.frame target c := by
  have h1 : (cs'.map (Character.frame target))[j]? = (cs.map (Character.frame target))[j]? := by
    rw [h]
  simp only [List.getElem?_map, hc, Option.map_some'] at h1
  cases hb : cs'[j]? with
  | none => simp [hb] at h1
  | some b =>
    simp only [hb, Option.map_some', Option.some.injEq] at h1
    exact ⟨b, rfl, h1⟩

theorem frame_health (target : GridPoint) (c c' : Character)
    (h : Character.frame target c' = Character.frame target c)
    (hoff : c.position ≠ target) : c'.position = c.position ∧ c'.health = c.health := by
  unfold Character.frame at h
  simp only [Prod.mk.injEq] at h
  obtain ⟨hp, _, _, _, hh⟩ := h
  refine ⟨hp, ?_⟩
  rw [hp, if_neg hoff, if_neg hoff] at hh
  exact Option.some.inj hh

/-- In the swept roster of a successful attack on a roster of living units, a
unit whose health is `≤ 0` stands on `dst`. -/
theorem swept_dead_on_target (R : Rules) (g : Game) (src dst : GridPoint) (i : Nat)
    (a : Character) (hl : Board.getCharacterInPoint src g.characters = some (i, a))
    (hk : a.kind ≠ .SOLDIER) (halive : ∀ c ∈ g.characters, 0 < c.health)
    (h : (Game.attack R g src dst).thrown = none) :
    ∀ c ∈ AttackAction.swept R ⟨g, src, dst⟩, ¬ 0 < c.health → c.position = dst := by
  intro c hc hdead
  by_contra hoff
  have hfr := swept_frame R g src dst i a hl hk h
  have hmem : Character.frame dst c ∈ g.characters.map (Character.frame dst) := by
    rw [← hfr]
    exact List.mem_map_of_mem _ hc
  obtain ⟨c0, hc0, hf0⟩ := List.mem_map.mp hmem
  have hp : c0.position = c.position := congrArg Prod.fst hf0
  obtain ⟨_, hh⟩ := frame_health dst c0 c hf0.symm (by rw [hp]; exact hoff)
  exact hdead (hh ▸ halive c0 hc0)

/-- C20: the attacker survives its own attack. On a roster of units with health
`> 0` and pairwise distinct positions, after a successful `Game::attack(src, dst)`
by a Medic or a Sniper the acting unit is still in the roster, at `src`, with the
health (and kind, team, range and power) it had; at most one unit has been
removed, and a removed unit stood on `dst`; so the roster after the call is not
empty. -/
theorem attacker_survives (R : Rules) (g : Game) (src dst : GridPoint) (i : Nat)
    (a : Character) (hl : Board.getCharacterInPoint src g.characters = some (i, a))
    (hk : a.kind ≠ .SOLDIER) (halive : ∀ c ∈ g.characters, 0 < c.health)
    (hnd : (g.characters.map (fun c => c.position)).Nodup)
    (h : (Game.attack R g src dst).thrown = none) :
    (∃ b ∈ (Game.attack R g src dst).game.characters,
      b.position = src ∧ b.health = a.health ∧ b.kind = a.kind ∧ b.team = a.team ∧
      b.range = a.range ∧ b.power = a.power) ∧
    g.characters.length ≤ (Game.attack R g src dst).game.characters.length + 1 ∧
    (∀ c ∈ AttackAction.swept R ⟨g, src, dst⟩,
      c ∉ (Game.attack R g src dst).game.characters → c.position = dst) ∧
    (Game.attack R g src dst).game.characters ≠ [] ∧
    (Game.attack R g src dst).game.characters.isEmpty = false := by
  obtain ⟨hi, hpos⟩ := getCharacterInPoint_some _ _ _ _ hl
  have hne := attack_success_src_ne_dst R g src dst i a hl hk h
  have hfr := swept_frame R g src dst i a hl hk h
  have hres : (Game.attack R g src dst).game.characters =
      (AttackAction.swept R ⟨g, src, dst⟩).filter (fun c => decide (0 < c.health)) := by
    rw [attack_success_filter R g src dst h]
    exact List.filter_congr (fun c _ => not_isDead_eq c)
  have hdead := swept_dead_on_target R g src dst i a hl hk halive h
  -- the acting unit
  obtain ⟨b, hb, hfb⟩ := frame_at dst g.characters _ hfr i a hi
  obtain ⟨hbp, hbh⟩ := frame_health dst a b hfb (by rw [hpos]; exact hne)
  have hbkind : b.kind = a.kind := by
    obtain ⟨a', hka, _, _, _, _, _, _, _, hcore⟩ := swept_core R g src dst i a hl hk h
    have hlt : i < g.characters.length := by
      rcases List.getElem?_eq_some.mp hi with ⟨hlt, _⟩
      exact hlt
    have h1 : ((AttackAction.swept R ⟨g, src, dst⟩).map Character.core)[i]? =
        ((g.characters.set i a').map Character.core)[i]? := by rw [hcore]
    simp only [List.getElem?_map, hb, List.getElem?_set_self hlt, Option.map_some',
      Option.some.injEq] at h1
    exact (congrArg Prod.fst h1).trans hka
  have hbres : b ∈ (Game.attack R g src dst).game.characters := by
    rw [hres, List.mem_filter]
    refine ⟨List.getElem?_mem hb, decide_eq_true ?_⟩
    rw [hbh]
    exact halive a (List.getElem?_mem hi)
  have hfields : b.team = a.team ∧ b.range = a.range ∧ b.power = a.power := by
    unfold Character.frame at hfb
    simp only [Prod.mk.injEq] at hfb
    exact ⟨hfb.2.2.2.1, hfb.2.1, hfb.2.2.1⟩
  refine ⟨⟨b, hbres, hbp.trans hpos, hbh, hbkind, hfields.1, hfields.2.1, hfields.2.2⟩,
    ?_, ?_, List.ne_nil_of_mem hbres, ?_⟩
  · -- at most one unit is removed
    have hlen : (AttackAction.swept R ⟨g, src, dst⟩).length = g.characters.length := by
      have := congrArg List.length hfr
      simpa using this
    have hposmap : (AttackAction.swept R ⟨g, src, dst⟩).map (fun c => c.position) =
        g.characters.map (fun c => c.position) := by
      have h2 := congrArg (List.map Prod.fst) hfr
      rw [List.map_map, List.map_map] at h2
      exact h2
    have hsplit := @List.length_eq_countP_add_countP _ (fun c => decide (0 < c.health))
      (AttackAction.swept R ⟨g, src, dst⟩)
    have hmono : List.countP (fun c => decide ¬ (decide (0 < c.health) = true))
        (AttackAction.swept R ⟨g, src, dst⟩) ≤
        List.countP (fun c => c.position == dst) (AttackAction.swept R ⟨g, src, dst⟩) := by
      apply List.countP_mono_left
      intro x hx hxd
      have hxd' : ¬ 0 < x.health := by simpa using hxd
      have := hdead x hx hxd'
      simp [this]
    have hcount : List.countP (fun c => c.position == dst)
        (AttackAction.swept R ⟨g, src, dst⟩) ≤ 1 := by
      have h3 : List.count dst ((AttackAction.swept R ⟨g, src, dst⟩).map
          (fun c => c.position)) ≤ 1 := by
        rw [hposmap]
        exact List.nodup_iff_count_le_one.mp hnd dst
      rw [List.count_eq_countP, List.countP_map] at h3
      exact h3
    rw [hres, ← List.countP_eq_length_filter, ← hlen]
    omega
  · intro c hc hnot
    apply hdead c hc
    intro hpos'
    apply hnot
    rw [hres, List.mem_filter]
    exact ⟨hc, decide_eq_true hpos'⟩
  · cases hx : (Game.attack R g src dst).game.characters with
    | nil => rw [hx] at hbres; cases hbres
    | cons _ _ => rfl

/-- Witness for C20: the third shot of `sampleShots`, which kills the Medic; the
Sniper stays. -/
theorem attacker_survives_witness :
    (∃ b ∈ (Game.attack sampleRules sampleShot3.game ⟨0, 2⟩ ⟨0, 0⟩).game.characters,
      b.position = (⟨0, 2⟩ : GridPoint) ∧
      b.health = ({ sampleSniper with ammo := 2, shot_counter := 2 } : Character).health ∧
      b.kind = ({ sampleSniper with ammo := 2, shot_counter := 2 } : Character).kind ∧
      b.team = ({ sampleSniper with ammo := 2, shot_counter := 2 } : Character).team ∧
      b.range = ({ sampleSniper with ammo := 2, shot_counter := 2 } : Character).range ∧
      b.power = ({ sampleSniper with ammo := 2, shot_counter := 2 } : Character).power) ∧
    sampleShot3.game.characters.length ≤
      (Game.attack sampleRules sampleShot3.game ⟨0, 2⟩ ⟨0, 0⟩).game.characters.length + 1 ∧
    (∀ c ∈ AttackAction.swept sampleRules ⟨sampleShot3.game, ⟨0, 2⟩, ⟨0, 0⟩⟩,
      c ∉ (Game.attack sampleRules sampleShot3.game ⟨0, 2⟩ ⟨0, 0⟩).game.characters →
      c.position = (⟨0, 0⟩ : GridPoint)) ∧
    (Game.attack sampleRules sampleShot3.game ⟨0, 2⟩ ⟨0, 0⟩).game.characters ≠ [] ∧
    (Game.attack sampleRules sampleShot3.game ⟨0, 2⟩ ⟨0, 0⟩).game.characters.isEmpty = false :=
  attacker_survives sampleRules sampleShot3.game ⟨0, 2⟩ ⟨0, 0⟩ 1
    { sampleSniper with ammo := 2, shot_counter := 2 }
    (by decide) (by decide) (by decide) (by decide) (by decide)

/-! ## End to end: a Sniper shoots a Medic -/

/-- A Sniper with ammo, an enemy on `dst` inside its range band and pairwise
distinct positions: `Game::attack` succeeds, and this is the game it leaves. -/
theorem sniper_attack_outcome (R : Rules) (g : Game) (src dst : GridPoint) (i k : Nat)
    (a t : Character) (hsrc : g.board.ensurePointOnBoard src = none)
    (hdst : g.board.ensurePointOnBoard dst = none)
    (hl : Board.getCharacterInPoint src g.characters = some (i, a))
    (hlk : Board.getCharacterInPoint dst g.characters = some (k, t))
    (hk : a.kind = .SNIPER) (hteam : t.team ≠ a.team)
    (hband : Sniper.validateTargetInRange R a dst = none) (hammo : 1 ≤ a.ammo)
    (hnd : (g.characters.map (fun c => c.position)).Nodup) :
    Game.attack R g src dst =
      ⟨{ g with characters :=
          (modifyAt
            (modifyAt (g.characters.set i { a with ammo := a.ammo - 1 }) k
              (fun c => c.decreaseHitPoints
                (if a.shot_counter = R.sniper.COMBO_FOR_BONUS - 1 then
                  a.power * R.sniper.IMPACT_FACTOR
                 else a.power)))
            i (fun c => { c with shot_counter :=
              if a.shot_counter = R.sniper.COMBO_FOR_BONUS - 1 then 0
              else c.shot_counter + 1 })).filter (fun c => !Game.isDead c) }, none⟩ := by
  obtain ⟨hi, _⟩ := getCharacterInPoint_some _ _ _ _ hl
  obtain ⟨hkk, htpos⟩ := getCharacterInPoint_some _ _ _ _ hlk
  have hocc : Board.getCharacterIfExists dst g.characters = some t := by
    unfold Board.getCharacterIfExists
    rw [hlk]
    rfl
  have hik : i ≠ k := by
    intro h
    subst h
    rw [hi] at hkk
    cases hkk
    exact hteam rfl
  have hlt : i < g.characters.length := by
    rcases List.getElem?_eq_some.mp hi with ⟨hlt, _⟩
    exact hlt
  have hatk : a.attack R dst (some t) = ({ a with ammo := a.ammo - 1 }, none) := by
    unfold Character.attack
    simp only [hk]
    unfold Sniper.attack
    simp only [hband]
    have hcond : ¬ (¬ (t.position = dst) ∨ t.team = a.team) := by
      intro hc
      rcases hc with hc | hc
      · exact hc htpos
      · exact hteam hc
    rw [if_neg hcond]
    unfold Character.decreaseAmmo
    rw [if_neg (by omega), hk]
  have hi1 : (g.characters.set i { a with ammo := a.ammo - 1 })[i]? =
      some { a with ammo := a.ammo - 1 } := List.getElem?_set_self hlt
  have hk1 : (g.characters.set i { a with ammo := a.ammo - 1 })[k]? = some t := by
    rw [List.getElem?_set_ne hik]
    exact hkk
  have hnd1 : ((g.characters.set i { a with ammo := a.ammo - 1 }).map
      (fun x => x.position)).Nodup := by
    rw [map_set_same (fun x => x.position) g.characters i a
      { a with ammo := a.ammo - 1 } hi rfl]
    exact hnd
  have hsw := sniper_sweep_result R _ i k { a with ammo := a.ammo - 1 } t dst hi1 hk1 hk
    htpos hnd1
  unfold Game.attack
  simp only [hsrc, hdst, hl, hocc, hatk]
  rw [modifyAt_eq_set _ _ _ a hi, hsw]

theorem isOver_two_teams (x y : Character) (b : Board) (slot : Option Team)
    (h : x.team ≠ y.team) : Game.isOver ⟨[x, y], b⟩ slot = (false, slot) := by
  cases hx : x.team <;> cases hy : y.team <;>
    simp [Game.isOver, Game.isOverLoop, hx, hy] at h ⊢

theorem isOver_single (x : Character) (b : Board) (slot : Option Team) :
    Game.isOver ⟨[x], b⟩ slot = (true, slot.map (fun _ => x.team)) := by
  cases hx : x.team <;> simp [Game.isOver, Game.isOverLoop, hx]

/-- The roster a first shot of the Sniper `s` on the Medic `m` leaves, given the
swept pair in roster order. -/
theorem shot_roster_cases (m s : Character) (b : Board) (slot : Option Team)
    (hs : s.kind = .SNIPER) (hteam : m.team ≠ s.team) (hhealth : 0 < s.health)
    (res : List Character)
    (hres : res = ([{ m with health := m.health - s.power },
        { s with ammo := s.ammo - 1, shot_counter := s.shot_counter + 1 }] :
          List Character).filter (fun c => !Game.isDead c) ∨
      res = ([{ s with ammo := s.ammo - 1, shot_counter := s.shot_counter + 1 },
        { m with health := m.health - s.power }] :
          List Character).filter (fun c => !Game.isDead c)) :
    (s.power < m.health →
      { m with health := m.health - s.power } ∈ res ∧
      Game.isOver ⟨res, b⟩ slot = (false, slot)) ∧
    (m.health ≤ s.power →
      (∀ c ∈ res, c.kind ≠ .MEDIC) ∧
      Game.isOver ⟨res, b⟩ slot = (true, slot.map (fun _ => s.team))) := by
  have hsa : Game.isDead { s with ammo := s.ammo - 1, shot_counter := s.shot_counter + 1 } =
      false := by
    unfold Game.isDead
    exact decide_eq_false (by simp only; omega)
  constructor
  · intro hlt
    have hma : Game.isDead { m with health := m.health - s.power } = false := by
      unfold Game.isDead
      exact decide_eq_false (by simp only; omega)
    rcases hres with hres | hres
    · have hr : res = [{ m with health := m.health - s.power },
          { s with ammo := s.ammo - 1, shot_counter := s.shot_counter + 1 }] := by
        rw [hres]
        simp [List.filter, hsa, hma]
      rw [hr]
      exact ⟨by simp, isOver_two_teams _ _ b slot hteam⟩
    · have hr : res = [{ s with ammo := s.ammo - 1, shot_counter := s.shot_counter + 1 },
          { m with health := m.health - s.power }] := by
        rw [hres]
        simp [List.filter, hsa, hma]
      rw [hr]
      exact ⟨by simp, isOver_two_teams _ _ b slot (Ne.symm hteam)⟩
  · intro hle
    have hma : Game.isDead { m with health := m.health - s.power } = true := by
      unfold Game.isDead
      exact decide_eq_true (by simp only; omega)
    have hr : res = [{ s with ammo := s.ammo - 1, shot_counter := s.shot_counter + 1 }] := by
      rcases hres with hres | hres <;> rw [hres] <;> simp [List.filter, hsa, hma]
    rw [hr]
    refine ⟨?_, isOver_single _ b slot⟩
    intro c hc
    rw [List.mem_singleton] at hc
    rw [hc]
    simp [hs]

/-- C14: end to end. A board holds exactly a Medic `m` and a Sniper `s` of the
other team, at different on-board points; the Sniper is fresh (`shot_counter`
0, health `> 0`), has at least one ammo, and the Medic's square passes the
Sniper's range check. Then `Game::attack(s.position, m.position)` succeeds; if
the Medic's health exceeds the Sniper's power the Medic is still in the roster
with its health reduced by that power and `isOver` returns false; otherwise the
Medic is gone from the roster and `isOver` returns true with the Sniper's team
in the winner slot. `COMBO_FOR_BONUS` is assumed different from 1, so that the
first shot is not the bonus shot. -/
theorem sniper_shoots_medic (R : Rules) (g : Game) (m s : Character) (slot : Option Team)
    (hcombo : R.sniper.COMBO_FOR_BONUS ≠ 1)
    (hroster : g.characters = [m, s] ∨ g.characters = [s, m])
    (hm : m.kind = .MEDIC) (hs : s.kind = .SNIPER) (hteam : m.team ≠ s.team)
    (hfresh : s.shot_counter = 0) (hhealth : 0 < s.health) (hammo : 1 ≤ s.ammo)
    (hpos : m.position ≠ s.position)
    (hmb : g.board.ensurePointOnBoard m.position = none)
    (hsb : g.board.ensurePointOnBoard s.position = none)
    (hband : Sniper.validateTargetInRange R s m.position = none) :
    (Game.attack R g s.position m.position).thrown = none ∧
    (s.power < m.health →
      { m with health := m.health - s.power } ∈
        (Game.attack R g s.position m.position).game.characters ∧
      Game.isOver (Game.attack R g s.position m.position).game slot = (false, slot)) ∧
    (m.health ≤ s.power →
      (∀ c ∈ (Game.attack R g s.position m.position).game.characters, c.kind ≠ .MEDIC) ∧
      Game.isOver (Game.attack R g s.position m.position).game slot =
        (true, slot.map (fun _ => s.team))) := by
  have hmk : m.kind ≠ .SOLDIER := by rw [hm]; decide
  have hc0 : ¬ (s.shot_counter = R.sniper.COMBO_FOR_BONUS - 1) := by
    rw [hfresh]
    omega
  have hpos' : ¬ s.position = m.position := fun h => hpos h.symm
  have hout : ∃ res, Game.attack R g s.position m.position = ⟨⟨res, g.board⟩, none⟩ ∧
      (res = ([{ m with health := m.health - s.power },
          { s with ammo := s.ammo - 1, shot_counter := s.shot_counter + 1 }] :
            List Character).filter (fun c => !Game.isDead c) ∨
        res = ([{ s with ammo := s.ammo - 1, shot_counter := s.shot_counter + 1 },
          { m with health := m.health - s.power }] :
            List Character).filter (fun c => !Game.isDead c)) := by
    rcases hroster with hr | hr
    · have hl : Board.getCharacterInPoint s.position g.characters = some (1, s) := by
        rw [hr]
        simp [Board.getCharacterInPoint, hpos]
      have hlk : Board.getCharacterInPoint m.position g.characters = some (0, m) := by
        rw [hr]
        simp [Board.getCharacterInPoint]
      have hnd : (g.characters.map (fun c => c.position)).Nodup := by
        rw [hr]
        simp [hpos]
      have h := sniper_attack_outcome R g s.position m.position 1 0 s m hsb hmb hl hlk hs
        hteam hband hammo hnd
      refine ⟨_, h, Or.inl ?_⟩
      rw [hr]
      simp [modifyAt, Character.decreaseHitPoints, hc0]
    · have hl : Board.getCharacterInPoint s.position g.characters = some (0, s) := by
        rw [hr]
        simp [Board.getCharacterInPoint]
      have hlk : Board.getCharacterInPoint m.position g.characters = some (1, m) := by
        rw [hr]
        simp [Board.getCharacterInPoint, hpos']
      have hnd : (g.characters.map (fun c => c.position)).Nodup := by
        rw [hr]
        simp [hpos']
      have h := sniper_attack_outcome R g s.position m.position 0 1 s m hsb hmb hl hlk hs
        hteam hband hammo hnd
      refine ⟨_, h, Or.inr ?_⟩
      rw [hr]
      simp [modifyAt, Character.decreaseHitPoints, hc0]
  obtain ⟨res, hatk, hres⟩ := hout
  rw [hatk]
  exact ⟨rfl, shot_roster_cases m s g.board slot hs hteam hhealth res hres⟩

/-- Witness for C14: `sampleGame`, where the Medic has health 10 and the Sniper
power 3. -/
theorem sniper_shoots_medic_witness :
    (Game.attack sampleRules sampleGame sampleSniper.position sampleMedic.position).thrown =
      none ∧
    (sampleSniper.power < sampleMedic.health →
      { sampleMedic with health := sampleMedic.health - sampleSniper.power } ∈
        (Game.attack sampleRules sampleGame sampleSniper.position
          sampleMedic.position).game.characters ∧
      Game.isOver (Game.attack sampleRules sampleGame sampleSniper.position
          sampleMedic.position).game (some .POWERLIFTERS) = (false, some .POWERLIFTERS)) ∧
    (sampleMedic.health ≤ sampleSniper.power →
      (∀ c ∈ (Game.attack sampleRules sampleGame sampleSniper.position
          sampleMedic.position).game.characters, c.kind ≠ .MEDIC) ∧
      Game.isOver (Game.attack sampleRules sampleGame sampleSniper.position
          sampleMedic.position).game (some .POWERLIFTERS) =
        (true, (some Team.POWERLIFTERS).map (fun _ => sampleSniper.team))) :=
  sniper_shoots_medic sampleRules sampleGame sampleMedic sampleSniper (some .POWERLIFTERS)
    (by decide) (by decide) (by decide) (by decide) (by decide) (by decide) (by decide)
    (by decide) (by decide) (by decide) (by decide) (by decide)

/-! ## The roster invariant -/

end mtm
